import Mathlib

/-!
# itv-manager: refresh-and-cache worker with session-backed authentication

A shallow embedding of `src/worker.js` and theorems about it.

Modelling conventions (each one is a statement about the platform the worker
runs on, not about the worker's own code):

* The key-value binding `env.IPTV_STORE` is a total, immediately consistent map.
  Its keys are built by the worker from six disjoint families
  (`iptv_configs`, `file_<directoryName>`, `download_interval`,
  `admin_session_<sessionId>`, `logs`, `last_scheduled_check`), so the store is
  the record `KV` with one component per family; `Key.name` gives the literal
  key string of every component.
* `JSON.stringify` followed by `kv.get(key, 'json')` is the identity on the
  values the worker writes, so a component holds the value itself; the one
  exception, a number that is not finite, is `afterJsonRoundTrip`.
* An `expirationTtl` given to `kv.put` is recorded next to the value; eviction
  by the store is not an action of the worker and is not embedded.
* All clock reads (`Date.now()`, `new Date()`) of one invocation observe the same
  instant `now`, in milliseconds; `toISOString()` renders that instant, so a
  stored ISO timestamp is represented by the instant itself.
* `fetch`, `Math.random` and the clock are inputs of the operations.
* A store operation does not fail.

The records of the catalog have string properties, as the data model has them.
The two catalog routes do not check this, so they are embedded twice: for every
JSON body (`apiConfigsPostJson`, `apiConfigsDeleteJson`), and restricted to
strings (`apiConfigsPost`, `apiConfigsDelete`), the two proved to agree on strings.
-/

namespace ItvManager

/-! ## Configuration (`getConfig`) -/

/-- The environment bindings read by `getConfig`; an unset variable is `none`. -/
structure Env where
  ADMIN_USERNAME : Option String
  ADMIN_PASSWORD : Option String
  deriving DecidableEq, Repr

/-- The configuration object returned by `getConfig` (the `KEYS` table is `Key.name`). -/
structure Config where
  ADMIN_USERNAME : String
  ADMIN_PASSWORD : String
  DEFAULT_INTERVAL : Nat
  deriving DecidableEq, Repr

/-- JavaScript `v || d` for an optional string: an unset or empty `v` gives `d`. -/
def orDefault (v : Option String) (d : String) : String :=
  match v with
  | some s => if s = "" then d else s
  | none => d

/-- `getConfig(env)`. -/
def getConfig (env : Env) : Config :=
  { ADMIN_USERNAME := orDefault env.ADMIN_USERNAME "admin"
    ADMIN_PASSWORD := orDefault env.ADMIN_PASSWORD "admin123"
    DEFAULT_INTERVAL := 24 }

/-! ## Data model -/

/-- One catalog record: the `newConfig` fields spread by `...newConfig`, then
`created` and `lastUpdated`. `extra` holds any further properties of the request
body, which the spread copies along. -/
structure FileConfig where
  directoryName : String
  sourceUrl : String
  extension : String
  extra : List (String × String)
  created : Int
  lastUpdated : Option Int
  deriving DecidableEq, Repr

/-- One log entry `{ time, type, message }`. -/
structure LogEntry where
  time : Int
  type : String
  message : String
  deriving DecidableEq, Repr

/-- The session object `{ username, loginTime, userAgent }`. -/
structure SessionData where
  username : String
  loginTime : Int
  userAgent : Option String
  deriving DecidableEq, Repr

/-- The families of keys the worker uses in the store. -/
inductive Key where
  | configs
  | file (directoryName : String)
  | interval
  | session (sessionId : String)
  | logs
  | lastScheduledCheck
  deriving DecidableEq, Repr

/-- The literal key string of each family: `config.KEYS.CONFIGS`,
`config.KEYS.FILES + directoryName`, `config.KEYS.INTERVAL`,
`config.KEYS.SESSION + sessionId`, `'logs'`, `'last_scheduled_check'`. -/
def Key.name : Key → String
  | .configs => "iptv_configs"
  | .file d => "file_" ++ d
  | .interval => "download_interval"
  | .session id => "admin_session_" ++ id
  | .logs => "logs"
  | .lastScheduledCheck => "last_scheduled_check"

/-- The store `env.IPTV_STORE`, one component per key family; `none` is an absent
key. A session is stored with the `expirationTtl` (seconds) of its last `put`. -/
structure KV where
  configs : Option (List FileConfig)
  files : String → Option String
  interval : Option String
  sessions : String → Option (SessionData × Nat)
  logs : Option (List LogEntry)
  lastScheduledCheck : Option Int

/-- The store with no key at all. -/
def KV.empty : KV :=
  { configs := none, files := fun _ => none, interval := none,
    sessions := fun _ => none, logs := none, lastScheduledCheck := none }

/-! ## Catalog and log (`getAllConfigs`, `saveConfigs`, `addLog`, `getLogs`) -/

/-- `getAllConfigs(kv, config)`: `configs || []`. -/
def getAllConfigs (kv : KV) : List FileConfig :=
  match kv.configs with
  | some cs => cs
  | none => []

/-- `saveConfigs(kv, config, configs)`. -/
def saveConfigs (kv : KV) (configs : List FileConfig) : KV :=
  { kv with configs := some configs }

/-- `getLogs(kv)`: `logs || []`. -/
def getLogs (kv : KV) : List LogEntry :=
  match kv.logs with
  | some ls => ls
  | none => []

/-- `addLog(kv, type, message)`: `unshift` the new entry, cut the array to 100
elements when it is longer, write it back. -/
def addLog (kv : KV) (now : Int) (type message : String) : KV :=
  let logs := (match kv.logs with
    | some ls => ls
    | none => [])
  let logs := { time := now, type := type, message := message : LogEntry } :: logs
  let logs := if logs.length > 100 then logs.take 100 else logs
  { kv with logs := some logs }

/-! ## Refresher (`downloadFile`) -/

/-- What `await fetch(url)` followed by `await response.text()` can do: reject
(transport failure, `error.message`), or resolve to a response with a status
whose body read either rejects or gives the text. -/
inductive FetchOutcome where
  | rejected (message : String)
  | response (status : Nat) (body : Except String String)

/-- `response.ok`: the status is in the range 200-299. -/
def statusOk (status : Nat) : Bool := decide (200 ≤ status) && decide (status ≤ 299)

/-- The outcome of the `try` block up to `response.text()`: the content, or the
message of the error thrown. -/
def fetchContent : FetchOutcome → Except String String
  | .rejected msg => .error msg
  | .response status body =>
    if statusOk status then body else .error ("HTTP " ++ toString status)

/-- The tagged result `{ success: true, content }` or `{ success: false, error }`. -/
structure DownloadResult where
  success : Bool
  content : Option String
  error : Option String
  deriving DecidableEq, Repr

/-- `Array.prototype.findIndex`, with `none` for `-1`. -/
def findIndex {α : Type} (p : α → Bool) : List α → Option Nat
  | [] => none
  | x :: xs => if p x then some 0 else (findIndex p xs).map (· + 1)

/-- The assignment `configs[index].lastUpdated = now`. -/
def setLastUpdated (configs : List FileConfig) (index : Nat) (now : Int) : List FileConfig :=
  match configs.get? index with
  | some c => configs.set index { c with lastUpdated := some now }
  | none => configs

/-- `downloadFile(kv, config, fileConfig)` for a given outcome of the fetch. -/
def downloadFile (kv : KV) (fileConfig : FileConfig) (outcome : FetchOutcome) (now : Int) :
    DownloadResult × KV :=
  match fetchContent outcome with
  | .ok content =>
    let kv := { kv with files := fun k =>
      if k = fileConfig.directoryName then some content else kv.files k }
    let configs := getAllConfigs kv
    let index := findIndex (fun c => decide (c.directoryName = fileConfig.directoryName)) configs
    let kv := (match index with
      | some i => saveConfigs kv (setLastUpdated configs i now)
      | none => kv)
    let kv := addLog kv now "info"
      ("成功下载: " ++ fileConfig.directoryName ++ " (" ++ fileConfig.sourceUrl ++ ")")
    ({ success := true, content := some content, error := none }, kv)
  | .error message =>
    let kv := addLog kv now "error"
      ("下载失败 " ++ fileConfig.directoryName ++ ": " ++ message)
    ({ success := false, content := none, error := some message }, kv)

/-! ## Session manager (`generateSessionId`, `checkAuth`, `getCurrentUsername`) -/

/-- The base64 alphabet. -/
def base64Alphabet : List Char :=
  "ABCDEFGHIJKLMNOPQRSTUVWXYZabcdefghijklmnopqrstuvwxyz0123456789+/".data

/-- The base64 digit of a six-bit value. -/
def base64Digit (n : Nat) : Char := base64Alphabet.getD n '='

/-- Base64 of a byte sequence, three bytes to four digits, padded with `=`. -/
def base64Encode : List Nat → List Char
  | [] => []
  | [a] => [base64Digit (a / 4), base64Digit (a % 4 * 16), '=', '=']
  | [a, b] =>
    [base64Digit (a / 4), base64Digit (a % 4 * 16 + b / 16), base64Digit (b % 16 * 4), '=']
  | a :: b :: c :: rest =>
    base64Digit (a / 4) :: base64Digit (a % 4 * 16 + b / 16) ::
      base64Digit (b % 16 * 4 + c / 64) :: base64Digit (c % 64) :: base64Encode rest

/-- The platform function `btoa`: it throws (`none`) when the string has a
character whose code is above 255, and otherwise encodes the codes as bytes. -/
def btoa (s : List Char) : Option (List Char) :=
  if s.all (fun c => decide (c.toNat ≤ 255)) then some (base64Encode (s.map Char.toNat))
  else none

/-- The characters that `.replace(/[=+/]/g, '')` keeps: all but `=`, `+` and `/`. -/
def keptChar (c : Char) : Bool := !(c == '=' || c == '+' || c == '/')

/-- `generateSessionId(username)`: `random` is the value of
`Math.random().toString(36).substring(2)`; the `replace` drops every `=`, `+`
and `/`. `none` is the exception thrown by `btoa`. -/
def generateSessionId (username : String) (now : Int) (random : String) : Option String :=
  match btoa (username ++ ":" ++ toString now ++ ":" ++ random).data with
  | some encoded =>
    some (String.mk (encoded.filter keptChar))
  | none => none

/-- The first capture group of `cookie.match(/admin_session=([^;]+)/)`: at the
leftmost position where `admin_session=` is followed by at least one character
other than `;`, the longest run of such characters. -/
def matchSession : List Char → Option (List Char)
  | [] => none
  | c :: cs =>
    if "admin_session=".data.isPrefixOf (c :: cs) then
      match ((c :: cs).drop 14).takeWhile (fun x => x != ';') with
      | [] => matchSession cs
      | y :: ys => some (y :: ys)
    else matchSession cs

/-- The session id named by the `Cookie` header (`none`: no header, or no match). -/
def sessionIdOf (cookie : Option String) : Option String :=
  match cookie with
  | none => none
  | some c =>
    if c = "" then none
    else match matchSession c.data with
      | some id => some (String.mk id)
      | none => none

/-- Seven days in milliseconds, `7 * 24 * 60 * 60 * 1000`. -/
def sevenDaysMs : Int := 7 * 24 * 60 * 60 * 1000

/-- `checkAuth(request, kv, config)`, for the request's `Cookie` header. -/
def checkAuth (cookie : Option String) (kv : KV) (now : Int) : Bool × KV :=
  match sessionIdOf cookie with
  | none => (false, kv)
  | some sessionId =>
    match kv.sessions sessionId with
    | none => (false, kv)
    | some (sessionData, _) =>
      let sessionAge := now - sessionData.loginTime
      if sessionAge > sevenDaysMs then
        (false, { kv with sessions := fun k => if k = sessionId then none else kv.sessions k })
      else
        let sessionData := { sessionData with loginTime := now }
        (true, { kv with sessions := fun k =>
          if k = sessionId then some (sessionData, 604800) else kv.sessions k })

/-- `getCurrentUsername(request, kv, config)`. -/
def getCurrentUsername (cookie : Option String) (kv : KV) : Option String :=
  match sessionIdOf cookie with
  | none => none
  | some sessionId =>
    match kv.sessions sessionId with
    | some (sessionData, _) => some sessionData.username
    | none => none

/-! ## Admin routes (`handleAdminRoutes`) -/

/-- The body of a response: the JSON objects `success: true` and `error: ...`,
or plain text. -/
inductive Body where
  | success
  | error (message : String)
  | text (content : String)
  deriving DecidableEq, Repr

/-- A response: status, body, and the `Set-Cookie` and `Location` headers. -/
structure Response where
  status : Nat
  body : Body
  setCookie : Option String
  location : Option String
  deriving DecidableEq, Repr

/-- The route `/admin/logout`. The object literal passed to `new Response` names
`headers` twice, so the later `headers: Location` replaces the `Headers` object
that carries `Set-Cookie`; the store is not touched. -/
def adminLogout (kv : KV) : Response × KV :=
  ({ status := 302, body := .text "正在退出...", setCookie := none, location := some "/admin" }, kv)

/-- The parsed body of a login request; a property that is not a string is `none`. -/
structure LoginBody where
  username : Option String
  password : Option String
  deriving DecidableEq, Repr

/-- The route `POST /admin/login`. A `body` of `none` is a request whose
`request.json()` or destructuring throws. -/
def adminLogin (config : Config) (body : Option LoginBody) (userAgent : Option String)
    (random : String) (kv : KV) (now : Int) : Response × KV :=
  match body with
  | none =>
    ({ status := 400, body := .error "登录请求格式错误", setCookie := none, location := none }, kv)
  | some b =>
    match b.username, b.password with
    | some username, some password =>
      if username = config.ADMIN_USERNAME ∧ password = config.ADMIN_PASSWORD then
        match generateSessionId username now random with
        | none =>
          ({ status := 400, body := .error "登录请求格式错误", setCookie := none,
             location := none }, kv)
        | some sessionId =>
          let sessionData : SessionData :=
            { username := username, loginTime := now, userAgent := userAgent }
          ({ status := 200, body := .success,
             setCookie := some ("admin_session=" ++ sessionId ++
               "; HttpOnly; Path=/admin; Max-Age=604800; SameSite=Strict"),
             location := none },
           { kv with sessions := fun k =>
               if k = sessionId then some (sessionData, 604800) else kv.sessions k })
      else
        ({ status := 401, body := .error "用户名或密码错误", setCookie := none,
           location := none }, kv)
    | _, _ =>
      ({ status := 401, body := .error "用户名或密码错误", setCookie := none,
         location := none }, kv)

/-- The parsed body of an add-source request whose three named properties are
strings or missing (`none`), as the admin form sends it; `JsonNewConfig` is the
body of any JSON shape. `extra` holds the properties other than these three,
`created` and `lastUpdated`. -/
structure NewConfig where
  directoryName : Option String
  sourceUrl : Option String
  extension : Option String
  extra : List (String × String)
  deriving DecidableEq, Repr

/-- JavaScript truthiness of an optional string: present and not empty. -/
def truthy (v : Option String) : Bool :=
  match v with
  | some s => s != ""
  | none => false

/-- The JSON response with status 400 and an `error` message. -/
def badRequest (message : String) : Response :=
  { status := 400, body := .error message, setCookie := none, location := none }

/-- The JSON response with status 404 and an `error` message. -/
def notFound (message : String) : Response :=
  { status := 404, body := .error message, setCookie := none, location := none }

/-- The JSON response `success: true`. -/
def okResponse : Response :=
  { status := 200, body := .success, setCookie := none, location := none }

/-- The route `POST /admin/api/configs`, after the authentication check, on a
body and a catalog of strings: the restriction of `apiConfigsPostJson`
(`apiConfigsPostJson_refines`). A `body` of `none` is a request whose
`request.json()` or property access throws. -/
def apiConfigsPost (body : Option NewConfig) (kv : KV) (now : Int) : Response × KV :=
  match body with
  | none => (badRequest "请求格式错误", kv)
  | some newConfig =>
    if !truthy newConfig.directoryName || !truthy newConfig.sourceUrl ||
        !truthy newConfig.extension then
      (badRequest "参数不完整", kv)
    else
      match newConfig.directoryName, newConfig.sourceUrl, newConfig.extension with
      | some directoryName, some sourceUrl, some extension =>
        let configs := getAllConfigs kv
        if configs.any (fun c => decide (c.directoryName = directoryName)) then
          (badRequest "目录名已存在", kv)
        else
          let record : FileConfig :=
            { directoryName := directoryName, sourceUrl := sourceUrl, extension := extension,
              extra := newConfig.extra, created := now, lastUpdated := none }
          let configs := configs ++ [record]
          let kv := saveConfigs kv configs
          let kv := addLog kv now "info" ("添加新配置: " ++ directoryName)
          (okResponse, kv)
      | _, _, _ => (badRequest "参数不完整", kv)

/-- The route `DELETE /admin/api/configs/<dirName>`, after the authentication
check, on a catalog of strings: the restriction of `apiConfigsDeleteJson`
(`apiConfigsDeleteJson_refines`); `dirName` is the last segment of the path. -/
def apiConfigsDelete (dirName : String) (kv : KV) (now : Int) : Response × KV :=
  let configs := getAllConfigs kv
  let filtered := configs.filter (fun c => decide (c.directoryName ≠ dirName))
  if filtered.length = configs.length then
    (notFound "配置不存在", kv)
  else
    let kv := saveConfigs kv filtered
    let kv := { kv with files := fun k => if k = dirName then none else kv.files k }
    let kv := addLog kv now "info" ("删除配置: " ++ dirName)
    (okResponse, kv)

/-- The admin routes embedded here, with the request data each one reads. The
login page, the dashboard, the detached update and the fall-through 404 are not
embedded. -/
inductive AdminRoute where
  | logout
  | login (body : Option LoginBody) (userAgent : Option String) (random : String)
  | addConfig (body : Option NewConfig)
  | deleteConfig (dirName : String)

/-- An admin request: the origin (scheme, host and port) of `request.url`, its
`Cookie` header, its route, and the instant it runs at. -/
structure AdminRequest where
  origin : String
  cookie : Option String
  route : AdminRoute
  now : Int

/-- `Response.redirect(new URL('/admin', request.url), 302)`: an empty body and
the absolute URL of `/admin` on the origin of the request in `Location`. -/
def redirectToAdmin (origin : String) : Response :=
  { status := 302, body := .text "", setCookie := none, location := some (origin ++ "/admin") }

/-- `handleAdminRoutes` on the embedded routes: logout and login return before the
authentication check, the two catalog routes run behind it. -/
def handleAdminRoutes (config : Config) (request : AdminRequest) (kv : KV) : Response × KV :=
  match request.route with
  | .logout => adminLogout kv
  | .login body userAgent random => adminLogin config body userAgent random kv request.now
  | .addConfig body =>
    let auth := checkAuth request.cookie kv request.now
    if auth.1 then apiConfigsPost body auth.2 request.now
    else (redirectToAdmin request.origin, auth.2)
  | .deleteConfig dirName =>
    let auth := checkAuth request.cookie kv request.now
    if auth.1 then apiConfigsDelete dirName auth.2 request.now
    else (redirectToAdmin request.origin, auth.2)

/-- The requests of a list handled one after another on the same store. -/
def runRequests (config : Config) : List AdminRequest → KV → KV
  | [], kv => kv
  | request :: rest, kv => runRequests config rest (handleAdminRoutes config request kv).2

/-! ## The catalog routes on arbitrary JSON bodies

`request.json()` gives any JSON value, and the add-source route stores the
properties it finds without checking that they are strings. The definitions of
this section embed the two catalog routes for every such body. `NewConfig`,
`apiConfigsPost` and `apiConfigsDelete` above are their restriction to records and
bodies whose three named properties are strings (`apiConfigsPostJson_refines`,
`apiConfigsDeleteJson_refines`). -/

/-- A JSON value, as far as the worker can observe it. A number is given by the
text `String(n)`, which determines it. An array or object is given by its
`JSON.stringify` text and by the string a template literal turns it into (`none`
when that conversion throws a `TypeError`). -/
inductive JsonValue where
  | null
  | bool (b : Bool)
  | number (text : String)
  | string (s : String)
  | compound (json : String) (text : Option String)
  deriving DecidableEq, Repr

/-- JavaScript truthiness of a property; `none` is a missing property
(`undefined`). Arrays and objects are truthy, also the empty ones. -/
def jsTruthy : Option JsonValue → Bool
  | none => false
  | some .null => false
  | some (.bool b) => b
  | some (.number text) => text != "0"
  | some (.string s) => s != ""
  | some (.compound _ _) => true

/-- The operator `===` between a value read from the store and a value of the
request (or of an earlier read): two primitives are compared by value, and an
array or object is never identical to one that comes from another `JSON.parse`. -/
def strictEquals : JsonValue → JsonValue → Bool
  | .null, .null => true
  | .bool a, .bool b => a == b
  | .number a, .number b => a == b
  | .string a, .string b => a == b
  | _, _ => false

/-- The string a template literal turns a value into; `none` when the conversion
throws. -/
def templateText : JsonValue → Option String
  | .null => some "null"
  | .bool b => some (if b then "true" else "false")
  | .number text => some text
  | .string s => some s
  | .compound _ text => text

/-- The value read back after `JSON.stringify` and `JSON.parse`: a number that is
not finite is written as `null`, every other value comes back as it was. -/
def afterJsonRoundTrip : JsonValue → JsonValue
  | .number text => if text = "Infinity" ∨ text = "-Infinity" then .null else .number text
  | v => v

/-- One record of the catalog document with the three named properties as the
JSON values they are. -/
structure JsonConfig where
  directoryName : JsonValue
  sourceUrl : JsonValue
  extension : JsonValue
  extra : List (String × String)
  created : Int
  lastUpdated : Option Int
  deriving DecidableEq, Repr

/-- The record as `JSON.stringify` writes it and `JSON.parse` reads it. -/
def JsonConfig.afterJsonRoundTrip (c : JsonConfig) : JsonConfig :=
  { c with directoryName := ItvManager.afterJsonRoundTrip c.directoryName
           sourceUrl := ItvManager.afterJsonRoundTrip c.sourceUrl
           extension := ItvManager.afterJsonRoundTrip c.extension }

/-- The value of `await request.json()` when it is an object, or a primitive or
array (then the three properties are missing); a missing property is `none`.
`extra` holds the properties other than the three named ones, `created` and
`lastUpdated`. -/
structure JsonNewConfig where
  directoryName : Option JsonValue
  sourceUrl : Option JsonValue
  extension : Option JsonValue
  extra : List (String × String)
  deriving DecidableEq, Repr

/-- The store with the catalog document holding records of any JSON shape; the
other components are those of `KV`. -/
structure JsonKV where
  configs : Option (List JsonConfig)
  files : String → Option String
  interval : Option String
  sessions : String → Option (SessionData × Nat)
  logs : Option (List LogEntry)
  lastScheduledCheck : Option Int

/-- The store with no key at all. -/
def JsonKV.empty : JsonKV :=
  { configs := none, files := fun _ => none, interval := none,
    sessions := fun _ => none, logs := none, lastScheduledCheck := none }

/-- `getAllConfigs(kv, config)` on a catalog of any JSON shape. -/
def getAllConfigsJson (kv : JsonKV) : List JsonConfig :=
  match kv.configs with
  | some cs => cs
  | none => []

/-- `saveConfigs(kv, config, configs)`: the document is `JSON.stringify(configs)`. -/
def saveConfigsJson (kv : JsonKV) (configs : List JsonConfig) : JsonKV :=
  { kv with configs := some (configs.map JsonConfig.afterJsonRoundTrip) }

/-- `addLog(kv, type, message)` on `JsonKV`. -/
def addLogJson (kv : JsonKV) (now : Int) (type message : String) : JsonKV :=
  let logs := (match kv.logs with
    | some ls => ls
    | none => [])
  let logs := { time := now, type := type, message := message : LogEntry } :: logs
  let logs := if logs.length > 100 then logs.take 100 else logs
  { kv with logs := some logs }

/-- The route `POST /admin/api/configs`, after the authentication check, for
every JSON body. A `body` of `none` is a request whose `request.json()` throws or
gives `null`. The template literal of the log message is evaluated after
`saveConfigs`; when it throws, the `catch` answers 400 with the catalog saved. -/
def apiConfigsPostJson (body : Option JsonNewConfig) (kv : JsonKV) (now : Int) :
    Response × JsonKV :=
  match body with
  | none => (badRequest "请求格式错误", kv)
  | some newConfig =>
    if !jsTruthy newConfig.directoryName || !jsTruthy newConfig.sourceUrl ||
        !jsTruthy newConfig.extension then
      (badRequest "参数不完整", kv)
    else
      match newConfig.directoryName, newConfig.sourceUrl, newConfig.extension with
      | some directoryName, some sourceUrl, some extension =>
        let configs := getAllConfigsJson kv
        if configs.any (fun c => strictEquals c.directoryName directoryName) then
          (badRequest "目录名已存在", kv)
        else
          let record : JsonConfig :=
            { directoryName := directoryName, sourceUrl := sourceUrl, extension := extension,
              extra := newConfig.extra, created := now, lastUpdated := none }
          let configs := configs ++ [record]
          let kv := saveConfigsJson kv configs
          match templateText directoryName with
          | some text => (okResponse, addLogJson kv now "info" ("添加新配置: " ++ text))
          | none => (badRequest "请求格式错误", kv)
      | _, _, _ => (badRequest "参数不完整", kv)

/-- The route `DELETE /admin/api/configs/<dirName>`, after the authentication
check, on a catalog of any JSON shape; `dirName` is a string, the last segment of
the path. -/
def apiConfigsDeleteJson (dirName : String) (kv : JsonKV) (now : Int) : Response × JsonKV :=
  let configs := getAllConfigsJson kv
  let filtered := configs.filter (fun c => !strictEquals c.directoryName (.string dirName))
  if filtered.length = configs.length then
    (notFound "配置不存在", kv)
  else
    let kv := saveConfigsJson kv filtered
    let kv := { kv with files := fun k => if k = dirName then none else kv.files k }
    let kv := addLogJson kv now "info" ("删除配置: " ++ dirName)
    (okResponse, kv)

/-- A record of strings as a record of JSON values. -/
def FileConfig.toJson (c : FileConfig) : JsonConfig :=
  { directoryName := .string c.directoryName, sourceUrl := .string c.sourceUrl,
    extension := .string c.extension, extra := c.extra, created := c.created,
    lastUpdated := c.lastUpdated }

/-- A body of strings as a JSON body. -/
def NewConfig.toJson (body : NewConfig) : JsonNewConfig :=
  { directoryName := body.directoryName.map JsonValue.string,
    sourceUrl := body.sourceUrl.map JsonValue.string,
    extension := body.extension.map JsonValue.string, extra := body.extra }

/-- A store whose catalog holds records of strings as a `JsonKV`. -/
def KV.toJson (kv : KV) : JsonKV :=
  { configs := kv.configs.map (List.map FileConfig.toJson), files := kv.files,
    interval := kv.interval, sessions := kv.sessions, logs := kv.logs,
    lastScheduledCheck := kv.lastScheduledCheck }

/-- The add-source body whose directoryName is the array `["news"]`. -/
def arrayNewsBody : JsonNewConfig :=
  { directoryName := some (.compound "[\"news\"]" (some "news")),
    sourceUrl := some (.string "http://x/list.m3u"), extension := some (.string "m3u"),
    extra := [] }

/-- The store after `arrayNewsBody` is posted to the empty store at instant 1. -/
def arrayAddedOnce : JsonKV := (apiConfigsPostJson (some arrayNewsBody) JsonKV.empty 1).2

/-- The store after `arrayNewsBody` is posted again, at instant 2. -/
def arrayAddedTwice : JsonKV := (apiConfigsPostJson (some arrayNewsBody) arrayAddedOnce 2).2

/-! ## Scheduled batch (`scheduled`) -/

/-- One invocation `downloadFile(kv, config, configItem)` made by the loop of
`scheduled`: the item, the outcome of its fetch, its instant, and the store the
invocation starts from. -/
structure DownloadCall where
  fileConfig : FileConfig
  outcome : FetchOutcome
  now : Int
  before : KV

/-- One store-changing operation of `scheduled`, with the store it starts from:
`kv.put('last_scheduled_check', ...)`, or one invocation of `downloadFile`. -/
inductive BatchStep where
  | putLastScheduledCheck (before : KV) (value : Int)
  | download (call : DownloadCall)

/-- The `for` loop of `scheduled`: `fetch i url` is the outcome of the fetch of
the `i`-th item and `clock i` the instant that item runs at. -/
def scheduledLoop (fetch : Nat → String → FetchOutcome) (clock : Nat → Int) :
    Nat → List FileConfig → KV → KV
  | _, [], kv => kv
  | i, configItem :: rest, kv =>
    scheduledLoop fetch clock (i + 1) rest
      (downloadFile kv configItem (fetch i configItem.sourceUrl) (clock i)).2

/-- The `for` loop of `scheduled` with every invocation recorded as it is made:
the steps in program order, and the store the loop leaves. -/
def scheduledLoopSteps (fetch : Nat → String → FetchOutcome) (clock : Nat → Int) :
    Nat → List FileConfig → KV → List BatchStep × KV
  | _, [], kv => ([], kv)
  | i, configItem :: rest, kv =>
    let next := scheduledLoopSteps fetch clock (i + 1) rest
      (downloadFile kv configItem (fetch i configItem.sourceUrl) (clock i)).2
    (.download { fileConfig := configItem, outcome := fetch i configItem.sourceUrl,
                 now := clock i, before := kv } :: next.1, next.2)

/-- The body of `scheduled(event, env, ctx)` in program order: the catalog is read
once, then `last_scheduled_check` is put, then the loop runs over the snapshot.
The result is the list of steps made, in the order made, and the store left;
`none` is an environment without the store binding, where the job returns at
once. The interval it reads is not used. -/
def scheduledRun (store : Option KV) (fetch : Nat → String → FetchOutcome) (start : Int)
    (clock : Nat → Int) : Option (List BatchStep × KV) :=
  match store with
  | none => none
  | some kv =>
    let configs := getAllConfigs kv
    let stamped := { kv with lastScheduledCheck := some start }
    let loop := scheduledLoopSteps fetch clock 0 configs stamped
    some (.putLastScheduledCheck kv start :: loop.1, loop.2)

/-- `scheduled(event, env, ctx)`: the store left by `scheduledRun`. -/
def scheduled (store : Option KV) (fetch : Nat → String → FetchOutcome) (start : Int)
    (clock : Nat → Int) : Option KV :=
  (scheduledRun store fetch start clock).map Prod.snd

/-! ## Predicates of the statements and inputs of the closed instances -/

/-- The failure predicate of the refresher: the fetch rejects (transport
failure), or resolves with a status for which `response.ok` is false. -/
def fetchFails : FetchOutcome → Bool
  | .rejected _ => true
  | .response status _ => !statusOk status

/-- The record of the source `news`, as the add-source route creates it at instant 5. -/
def newsRecord : FileConfig :=
  { directoryName := "news", sourceUrl := "http://x/list.m3u", extension := "m3u",
    extra := [], created := 5, lastUpdated := none }

/-- The add-source request body for `news`. -/
def newsBody : NewConfig :=
  { directoryName := some "news", sourceUrl := some "http://x/list.m3u",
    extension := some "m3u", extra := [] }

/-- A store whose catalog holds the single record `news`, with cached content. -/
def newsStore : KV :=
  { KV.empty with configs := some [newsRecord],
                  files := fun k => if k = "news" then some "#EXTM3U" else none }

/-- A request property that is missing or is the empty string. -/
def missingOrEmpty (v : Option String) : Prop := v = none ∨ v = some ""

/-- A store holding one session `abc` of `admin`, created at instant 0. -/
def sessionStore : KV :=
  { KV.empty with sessions := fun k =>
      if k = "abc" then some ({ username := "admin", loginTime := 0, userAgent := none }, 604800)
      else none }

/-- One day in milliseconds. -/
def dayMs : Int := 24 * 60 * 60 * 1000

/-- The uniqueness invariant of the catalog: no two records of the persisted
document have the same directoryName. -/
def namesUnique (kv : KV) : Prop :=
  ((getAllConfigs kv).map (fun c => c.directoryName)).Nodup

instance namesUniqueDecidable (kv : KV) : Decidable (namesUnique kv) :=
  inferInstanceAs (Decidable (List.Nodup _))

/-- The default configuration: no environment variable set. -/
def defaultConfig : Config := getConfig { ADMIN_USERNAME := none, ADMIN_PASSWORD := none }

/-- The login body with the default credentials. -/
def adminBody : LoginBody := { username := some "admin", password := some "admin123" }

/-- The `Cookie` header a client sends after the login of `admin` at instant 1000
with the random part `abc`. -/
def adminCookie : Option String := some "admin_session=YWRtaW46MTAwMDphYmM"

/-- A session of requests: login, add `news`, add `news` again, add `sport`,
remove `news`, add `news`. -/
def sampleRequests : List AdminRequest :=
  [ { origin := "https://tv.example", cookie := none,
      route := .login (some adminBody) (some "agentX") "abc", now := 1000 },
    { origin := "https://tv.example", cookie := adminCookie,
      route := .addConfig (some newsBody), now := 2000 },
    { origin := "https://tv.example", cookie := adminCookie,
      route := .addConfig (some newsBody), now := 3000 },
    { origin := "https://tv.example", cookie := adminCookie,
      route := .addConfig (some { newsBody with directoryName := some "sport" }), now := 4000 },
    { origin := "https://tv.example", cookie := adminCookie, route := .deleteConfig "news",
      now := 5000 },
    { origin := "https://tv.example", cookie := adminCookie,
      route := .addConfig (some newsBody), now := 6000 } ]

/-- The store after `news` is added to the empty store at instant 5. -/
def addedStore : KV := (apiConfigsPost (some newsBody) KV.empty 5).2

/-- A stub fetch that answers every request with status 200 and a playlist body. -/
def stubFetch : Nat → String → FetchOutcome := fun _ _ => .response 200 (.ok "#EXTM3U...")

/-- The outcome of the login of `admin` (default credentials, user agent `agentX`)
on the empty store at instant 1000 with the random part `abc`. -/
def adminLoggedIn : Response × KV :=
  adminLogin defaultConfig (some adminBody) (some "agentX") "abc" KV.empty 1000

/-- The outcome of a logout request, carrying the session cookie, handled at
instant 2000 on the store left by the login. -/
def adminLoggedOut : Response × KV :=
  handleAdminRoutes defaultConfig
    { origin := "https://tv.example", cookie := adminCookie, route := .logout, now := 2000 }
    adminLoggedIn.2

/-- An environment whose administrator name is written in Chinese characters. -/
def chineseEnv : Env := { ADMIN_USERNAME := some "管理员", ADMIN_PASSWORD := none }

/-- The login body with the credentials configured by `chineseEnv`. -/
def chineseBody : LoginBody := { username := some "管理员", password := some "admin123" }

/-! ## Scheduled batch: the invocations of the loop -/

/-- The invocations of `downloadFile` that the loop of `scheduled` makes, in the
order it makes them; the recursion is that of `scheduledLoop`. -/
def scheduledCalls (fetch : Nat → String → FetchOutcome) (clock : Nat → Int) :
    Nat → List FileConfig → KV → List DownloadCall
  | _, [], _ => []
  | i, configItem :: rest, kv =>
    { fileConfig := configItem, outcome := fetch i configItem.sourceUrl, now := clock i,
      before := kv } ::
      scheduledCalls fetch clock (i + 1) rest
        (downloadFile kv configItem (fetch i configItem.sourceUrl) (clock i)).2

/-- The record at position `p.1` of the snapshot after its own refresh: stamped
with the instant of its item when its fetch gave a content, as it was otherwise. -/
def refreshed (fetch : Nat → String → FetchOutcome) (clock : Nat → Int)
    (p : Nat × FileConfig) : FileConfig :=
  match fetchContent (fetch p.1 p.2.sourceUrl) with
  | .ok _ => { p.2 with lastUpdated := some (clock p.1) }
  | .error _ => p.2

/-- The source `a`, never refreshed. -/
def recordA : FileConfig :=
  { directoryName := "a", sourceUrl := "http://x/a", extension := "m3u", extra := [],
    created := 1, lastUpdated := none }

/-- The source `b`, never refreshed. -/
def recordB : FileConfig :=
  { directoryName := "b", sourceUrl := "http://x/b", extension := "m3u", extra := [],
    created := 2, lastUpdated := none }

/-- The source `c`, never refreshed. -/
def recordC : FileConfig :=
  { directoryName := "c", sourceUrl := "http://x/c", extension := "txt", extra := [],
    created := 3, lastUpdated := none }

/-- The catalog `a`, `b`, `c`. -/
def threeRecords : List FileConfig := [recordA, recordB, recordC]

/-- A store whose catalog is `threeRecords`. -/
def threeStore : KV := { KV.empty with configs := some threeRecords }

/-- A fetch that fails for the first two items (a transport failure, then status
500) and answers the third one with status 200. -/
def flakyFetch : Nat → String → FetchOutcome := fun i _ =>
  if i = 0 then .rejected "connect timeout"
  else if i = 1 then .response 500 (.ok "oops")
  else .response 200 (.ok "#EXTM3U c")

/-- The instants of the items of a batch: item `i` runs at `10 + i`. -/
def itemClock : Nat → Int := fun i => 10 + Int.ofNat i

/-! ## Key families -/

/-- The key strings of the six families never coincide: two keys with the same
string are the same key, so the components of `KV` do not overlap in the store. -/
theorem Key.name_injective (k1 k2 : Key) (h : k1.name = k2.name) : k1 = k2 := by
  have hd := congrArg String.data h
  cases k1 <;> cases k2 <;> first
    | rfl
    | (exfalso; revert hd; simp [Key.name, String.data_append]; done)
    | (simp only [Key.name, String.data_append, List.append_cancel_left_eq] at hd
       rw [String.ext hd])

/-! ## Log store -/

theorem getLogs_addLog (kv : KV) (now : Int) (type message : String) :
    getLogs (addLog kv now type message) =
      (({ time := now, type := type, message := message } : LogEntry) :: getLogs kv).take 100 := by
  unfold addLog getLogs
  cases kv.logs <;> simp only <;> split <;> try rfl
  all_goals
    rename_i h
    rw [List.take_of_length_le (by omega)]

theorem addLog_eq (kv : KV) (now : Int) (type message : String) :
    addLog kv now type message =
      { kv with logs := some ((({ time := now, type := type, message := message } : LogEntry)
        :: getLogs kv).take 100) } := by
  have h := getLogs_addLog kv now type message
  unfold getLogs at h
  unfold addLog getLogs at *
  simp only at h ⊢
  rw [h]

/-- C7: for every persisted log (absent counts as empty, any length), `addLog`
persists exactly the first 100 elements of the new entry followed by the old log:
at most 100 entries, the new entry first, then the 99 newest old entries in their
order; no other key of the store changes. -/
theorem addLog_persists_newest_100 (kv : KV) (now : Int) (type message : String) :
    (addLog kv now type message).logs =
        some ((({ time := now, type := type, message := message } : LogEntry)
          :: getLogs kv).take 100) ∧
      (getLogs (addLog kv now type message)).length ≤ 100 ∧
      getLogs (addLog kv now type message) =
        ({ time := now, type := type, message := message } : LogEntry)
          :: (getLogs kv).take 99 ∧
      (addLog kv now type message).configs = kv.configs ∧
      (addLog kv now type message).files = kv.files ∧
      (addLog kv now type message).sessions = kv.sessions ∧
      (addLog kv now type message).interval = kv.interval ∧
      (addLog kv now type message).lastScheduledCheck = kv.lastScheduledCheck := by
  rw [getLogs_addLog, addLog_eq]
  refine ⟨rfl, ?_, rfl, rfl, rfl, rfl, rfl, rfl⟩
  simp [List.length_take]

/-! ## Refresher: failure path -/

theorem fetchContent_of_fetchFails (outcome : FetchOutcome) (h : fetchFails outcome = true) :
    ∃ message, fetchContent outcome = .error message := by
  cases outcome with
  | rejected msg => exact ⟨msg, rfl⟩
  | response status body =>
    simp only [fetchFails, Bool.not_eq_true'] at h
    exact ⟨"HTTP " ++ toString status, by simp [fetchContent, h]⟩

theorem downloadFile_error (kv : KV) (fileConfig : FileConfig) (outcome : FetchOutcome)
    (now : Int) (message : String) (h : fetchContent outcome = .error message) :
    downloadFile kv fileConfig outcome now =
      ({ success := false, content := none, error := some message },
        addLog kv now "error" ("下载失败 " ++ fileConfig.directoryName ++ ": " ++ message)) := by
  unfold downloadFile
  rw [h]

/-- C5: for every record and every store, when the fetch fails (it rejects, or it
resolves with a status that is not in 200-299), `downloadFile` returns the tagged
result with `success = false`, leaves the catalog document, the content cache and
every other key but `logs` as they were, and the log becomes the first 100 entries
of one new entry of type `error` followed by the old log. -/
theorem downloadFile_failure_isolated (kv : KV) (fileConfig : FileConfig)
    (outcome : FetchOutcome) (now : Int) (h : fetchFails outcome = true) :
    (downloadFile kv fileConfig outcome now).1.success = false ∧
      (downloadFile kv fileConfig outcome now).2.configs = kv.configs ∧
      (downloadFile kv fileConfig outcome now).2.files = kv.files ∧
      (downloadFile kv fileConfig outcome now).2.sessions = kv.sessions ∧
      (downloadFile kv fileConfig outcome now).2.interval = kv.interval ∧
      (downloadFile kv fileConfig outcome now).2.lastScheduledCheck = kv.lastScheduledCheck ∧
      ∃ message,
        (downloadFile kv fileConfig outcome now).1.error = some message ∧
        getLogs (downloadFile kv fileConfig outcome now).2 =
          (({ time := now, type := "error",
              message := "下载失败 " ++ fileConfig.directoryName ++ ": " ++ message } : LogEntry)
            :: getLogs kv).take 100 := by
  obtain ⟨message, hm⟩ := fetchContent_of_fetchFails outcome h
  rw [downloadFile_error kv fileConfig outcome now message hm, addLog_eq]
  exact ⟨rfl, rfl, rfl, rfl, rfl, rfl, message, rfl, rfl⟩

/-- C5, at the record `news` with a fetch answered 404: the result is a failure,
the catalog and the cached content are untouched. -/
theorem downloadFile_failure_isolated_witness :
    fetchFails (.response 404 (.ok "gone")) = true ∧
      (downloadFile newsStore newsRecord (.response 404 (.ok "gone")) 9).1.success = false ∧
      (downloadFile newsStore newsRecord (.response 404 (.ok "gone")) 9).2.configs =
        newsStore.configs ∧
      (downloadFile newsStore newsRecord (.response 404 (.ok "gone")) 9).2.files =
        newsStore.files :=
  ⟨by decide,
    (downloadFile_failure_isolated newsStore newsRecord (.response 404 (.ok "gone")) 9
      (by decide)).1,
    (downloadFile_failure_isolated newsStore newsRecord (.response 404 (.ok "gone")) 9
      (by decide)).2.1,
    (downloadFile_failure_isolated newsStore newsRecord (.response 404 (.ok "gone")) 9
      (by decide)).2.2.1⟩

/-! ## Catalog: remove -/

theorem filter_length_lt_of_mem (configs : List FileConfig) (d : String)
    (h : ∃ c ∈ configs, c.directoryName = d) :
    (configs.filter (fun c => decide (c.directoryName ≠ d))).length ≠ configs.length := by
  obtain ⟨c, hc, hd⟩ := h
  intro heq
  have := List.filter_length_eq_length.1 heq c hc
  simp [hd] at this

theorem apiConfigsDelete_found (dirName : String) (kv : KV) (now : Int)
    (h : ∃ c ∈ getAllConfigs kv, c.directoryName = dirName) :
    apiConfigsDelete dirName kv now =
      (okResponse,
        addLog { kv with
          configs := some ((getAllConfigs kv).filter (fun c => decide (c.directoryName ≠ dirName)))
          files := fun k => if k = dirName then none else kv.files k }
          now "info" ("删除配置: " ++ dirName)) := by
  unfold apiConfigsDelete
  simp only [if_neg (filter_length_lt_of_mem _ _ h), saveConfigs]

/-- C6: when the catalog holds a record named `d`, remove-source for `d` succeeds,
the persisted catalog is the old one without the records named `d` (so none is
named `d` and the others stay, in order), the cached content under `file_d` is
absent, and the cached content of every other source is as it was. -/
theorem apiConfigsDelete_removes_record_and_content (d : String) (kv : KV) (now : Int)
    (h : ∃ c ∈ getAllConfigs kv, c.directoryName = d) :
    (apiConfigsDelete d kv now).1 = okResponse ∧
      (apiConfigsDelete d kv now).2.configs =
        some ((getAllConfigs kv).filter (fun c => decide (c.directoryName ≠ d))) ∧
      (∀ c ∈ getAllConfigs (apiConfigsDelete d kv now).2, c.directoryName ≠ d) ∧
      (apiConfigsDelete d kv now).2.files d = none ∧
      (∀ k, k ≠ d → (apiConfigsDelete d kv now).2.files k = kv.files k) := by
  rw [apiConfigsDelete_found d kv now h, addLog_eq]
  refine ⟨rfl, rfl, ?_, ?_, ?_⟩
  · intro c hc
    simp only [getAllConfigs, List.mem_filter, decide_eq_true_eq] at hc
    exact hc.2
  · simp
  · intro k hk
    simp [hk]

/-- C6, at the store holding `news` with cached content: after the removal the
catalog is empty and the content of `news` is gone. -/
theorem apiConfigsDelete_removes_record_and_content_witness :
    (∃ c ∈ getAllConfigs newsStore, c.directoryName = "news") ∧
      newsStore.files "news" = some "#EXTM3U" ∧
      (apiConfigsDelete "news" newsStore 9).2.configs =
        some ((getAllConfigs newsStore).filter (fun c => decide (c.directoryName ≠ "news"))) ∧
      (apiConfigsDelete "news" newsStore 9).2.files "news" = none :=
  ⟨⟨newsRecord, by simp [getAllConfigs, newsStore, KV.empty], rfl⟩, by decide,
    (apiConfigsDelete_removes_record_and_content "news" newsStore 9
      ⟨newsRecord, by simp [getAllConfigs, newsStore, KV.empty], rfl⟩).2.1,
    (apiConfigsDelete_removes_record_and_content "news" newsStore 9
      ⟨newsRecord, by simp [getAllConfigs, newsStore, KV.empty], rfl⟩).2.2.2.1⟩

/-! ## Catalog: add -/

theorem checkAuth_configs (cookie : Option String) (kv : KV) (now : Int) :
    (checkAuth cookie kv now).2.configs = kv.configs := by
  unfold checkAuth
  split
  · rfl
  · split
    · rfl
    · simp only
      split <;> rfl

theorem checkAuth_only_sessions (cookie : Option String) (kv : KV) (now : Int) :
    (checkAuth cookie kv now).2 =
      { kv with sessions := (checkAuth cookie kv now).2.sessions } := by
  unfold checkAuth
  split
  · rfl
  · split
    · rfl
    · simp only
      split <;> rfl


theorem truthy_eq_false_iff (v : Option String) : truthy v = false ↔ missingOrEmpty v := by
  cases v with
  | none => simp [truthy, missingOrEmpty]
  | some s => simp [truthy, missingOrEmpty]

theorem apiConfigsPost_invalid (body : NewConfig) (kv : KV) (now : Int)
    (h : missingOrEmpty body.directoryName ∨ missingOrEmpty body.sourceUrl ∨
      missingOrEmpty body.extension) :
    apiConfigsPost (some body) kv now = (badRequest "参数不完整", kv) := by
  have hc : (!truthy body.directoryName || !truthy body.sourceUrl ||
      !truthy body.extension) = true := by
    simp only [← truthy_eq_false_iff] at h
    rcases h with h | h | h <;> simp [h]
  simp only [apiConfigsPost, hc, if_true]

theorem apiConfigsPost_valid (body : NewConfig) (kv : KV) (now : Int) (d u e : String)
    (hd : body.directoryName = some d) (hu : body.sourceUrl = some u)
    (he : body.extension = some e) (hd0 : d ≠ "") (hu0 : u ≠ "") (he0 : e ≠ "") :
    apiConfigsPost (some body) kv now =
      if (getAllConfigs kv).any (fun c => decide (c.directoryName = d)) then
        (badRequest "目录名已存在", kv)
      else
        (okResponse, addLog (saveConfigs kv (getAllConfigs kv ++
          [{ directoryName := d, sourceUrl := u, extension := e, extra := body.extra,
             created := now, lastUpdated := none }])) now "info" ("添加新配置: " ++ d)) := by
  simp [apiConfigsPost, hd, hu, he, truthy, hd0, hu0, he0]

theorem getAllConfigs_congr (kv kv2 : KV) (h : kv2.configs = kv.configs) :
    getAllConfigs kv2 = getAllConfigs kv := by
  unfold getAllConfigs
  rw [h]

theorem apiConfigsPost_duplicate (body : NewConfig) (kv : KV) (now : Int)
    (h : ∃ c ∈ getAllConfigs kv, some c.directoryName = body.directoryName) :
    apiConfigsPost (some body) kv now = (badRequest "参数不完整", kv) ∨
      apiConfigsPost (some body) kv now = (badRequest "目录名已存在", kv) := by
  obtain ⟨c, hc, hcd⟩ := h
  by_cases hinv : missingOrEmpty body.directoryName ∨ missingOrEmpty body.sourceUrl ∨
      missingOrEmpty body.extension
  · exact Or.inl (apiConfigsPost_invalid body kv now hinv)
  · right
    simp only [not_or, missingOrEmpty] at hinv
    obtain ⟨⟨-, hd0⟩, ⟨hu1, hu0⟩, he1, he0⟩ := hinv
    obtain ⟨u, hu⟩ := Option.ne_none_iff_exists'.1 hu1
    obtain ⟨e, he⟩ := Option.ne_none_iff_exists'.1 he1
    have hd0' : c.directoryName ≠ "" := fun h0 => hd0 (by rw [← hcd, h0])
    have hu0' : u ≠ "" := fun h0 => hu0 (by rw [hu, h0])
    have he0' : e ≠ "" := fun h0 => he0 (by rw [he, h0])
    rw [apiConfigsPost_valid body kv now c.directoryName u e hcd.symm hu he hd0' hu0' he0']
    have : (getAllConfigs kv).any (fun x => decide (x.directoryName = c.directoryName)) = true :=
      List.any_eq_true.2 ⟨c, hc, by simp⟩
    rw [if_pos this]

theorem handleAdminRoutes_add_rejected (config : Config) (origin : String)
    (cookie : Option String)
    (body : NewConfig) (kv : KV) (now : Int)
    (h : missingOrEmpty body.directoryName ∨ missingOrEmpty body.sourceUrl ∨
      missingOrEmpty body.extension ∨
      ∃ c ∈ getAllConfigs kv, some c.directoryName = body.directoryName) :
    (handleAdminRoutes config
        { origin := origin, cookie := cookie, route := .addConfig (some body), now := now }
        kv).2.configs =
          kv.configs ∧
      (handleAdminRoutes config
        { origin := origin, cookie := cookie, route := .addConfig (some body), now := now }
        kv).2.files =
          kv.files ∧
      (handleAdminRoutes config
        { origin := origin, cookie := cookie, route := .addConfig (some body), now := now }
        kv).2.logs =
          kv.logs := by
  have hauth := checkAuth_only_sessions cookie kv now
  have hkeep : (checkAuth cookie kv now).2.configs = kv.configs ∧
      (checkAuth cookie kv now).2.files = kv.files ∧
      (checkAuth cookie kv now).2.logs = kv.logs := by
    rw [hauth]
    exact ⟨rfl, rfl, rfl⟩
  have hpost : (apiConfigsPost (some body) (checkAuth cookie kv now).2 now).2 =
      (checkAuth cookie kv now).2 := by
    have hcases : apiConfigsPost (some body) (checkAuth cookie kv now).2 now =
          (badRequest "参数不完整", (checkAuth cookie kv now).2) ∨
        apiConfigsPost (some body) (checkAuth cookie kv now).2 now =
          (badRequest "目录名已存在", (checkAuth cookie kv now).2) := by
      rcases h with h | h | h | h
      · exact Or.inl (apiConfigsPost_invalid body _ now (Or.inl h))
      · exact Or.inl (apiConfigsPost_invalid body _ now (Or.inr (Or.inl h)))
      · exact Or.inl (apiConfigsPost_invalid body _ now (Or.inr (Or.inr h)))
      · refine apiConfigsPost_duplicate body _ now ?_
        rw [getAllConfigs_congr kv _ hkeep.1]
        exact h
    rcases hcases with e | e <;> rw [e]
  simp only [handleAdminRoutes]
  split
  · rw [hpost]
    exact hkeep
  · exact hkeep

/-- The add-source route on bodies of strings, for every store. (1) A body that cannot be
read, or one whose directoryName, sourceUrl or extension is missing or empty, is
rejected with status 400 whatever the store holds, and the store is returned as it
was. (2) A complete request whose directoryName is already in the catalog is
rejected with status 400 and the store is returned as it was. (3) Any other
complete request succeeds: the catalog becomes the old catalog followed by the new
record, with `created = now` and `lastUpdated` absent, and the content cache is as
it was. (4) Through the whole handler, authentication check included, a request
rejected for (1) or (2) leaves the catalog, the content cache and the log as they
were. -/
theorem apiConfigsPost_contract (body : NewConfig) (kv : KV) (now : Int) :
    (∀ other : KV, apiConfigsPost none other now = (badRequest "请求格式错误", other)) ∧
    ((missingOrEmpty body.directoryName ∨ missingOrEmpty body.sourceUrl ∨
        missingOrEmpty body.extension) →
      ∀ other : KV, apiConfigsPost (some body) other now = (badRequest "参数不完整", other)) ∧
    (∀ d u e : String, body.directoryName = some d → body.sourceUrl = some u →
      body.extension = some e → d ≠ "" → u ≠ "" → e ≠ "" →
      ((∃ c ∈ getAllConfigs kv, c.directoryName = d) →
        apiConfigsPost (some body) kv now = (badRequest "目录名已存在", kv)) ∧
      ((∀ c ∈ getAllConfigs kv, c.directoryName ≠ d) →
        (apiConfigsPost (some body) kv now).1 = okResponse ∧
        (apiConfigsPost (some body) kv now).2.configs =
          some (getAllConfigs kv ++
            [{ directoryName := d, sourceUrl := u, extension := e, extra := body.extra,
               created := now, lastUpdated := none }]) ∧
        (apiConfigsPost (some body) kv now).2.files = kv.files ∧
        (apiConfigsPost (some body) kv now).2.sessions = kv.sessions)) ∧
    (∀ (config : Config) (origin : String) (cookie : Option String),
      (missingOrEmpty body.directoryName ∨ missingOrEmpty body.sourceUrl ∨
        missingOrEmpty body.extension ∨
        ∃ c ∈ getAllConfigs kv, some c.directoryName = body.directoryName) →
      (handleAdminRoutes config
        { origin := origin, cookie := cookie, route := .addConfig (some body), now := now }
        kv).2.configs =
          kv.configs ∧
      (handleAdminRoutes config
        { origin := origin, cookie := cookie, route := .addConfig (some body), now := now }
        kv).2.files =
          kv.files ∧
      (handleAdminRoutes config
        { origin := origin, cookie := cookie, route := .addConfig (some body), now := now }
        kv).2.logs =
          kv.logs) := by
  refine ⟨fun _ => rfl, fun h other => apiConfigsPost_invalid body other now h, ?_,
    fun config origin cookie h =>
      handleAdminRoutes_add_rejected config origin cookie body kv now h⟩
  intro d u e hd hu he hd0 hu0 he0
  rw [apiConfigsPost_valid body kv now d u e hd hu he hd0 hu0 he0]
  constructor
  · rintro ⟨c, hc, hcd⟩
    have : (getAllConfigs kv).any (fun c => decide (c.directoryName = d)) = true :=
      List.any_eq_true.2 ⟨c, hc, by simp [hcd]⟩
    rw [if_pos this]
  · intro hall
    have : ¬ (getAllConfigs kv).any (fun c => decide (c.directoryName = d)) = true := by
      intro hany
      obtain ⟨c, hc, hcd⟩ := List.any_eq_true.1 hany
      exact hall c hc (by simpa using hcd)
    rw [if_neg this, addLog_eq]
    exact ⟨rfl, rfl, rfl, rfl⟩

/-- The add-source route at concrete bodies of strings: a body without sourceUrl is rejected on the store
holding `news`; a second `news` is rejected there; `news` is accepted on the empty
store and becomes the only record. -/
theorem apiConfigsPost_contract_witness :
    apiConfigsPost (some { newsBody with sourceUrl := none }) newsStore 5 =
        (badRequest "参数不完整", newsStore) ∧
      apiConfigsPost (some newsBody) newsStore 5 = (badRequest "目录名已存在", newsStore) ∧
      (apiConfigsPost (some newsBody) KV.empty 5).2.configs = some ([] ++ [newsRecord]) :=
  ⟨(apiConfigsPost_contract { newsBody with sourceUrl := none } newsStore 5).2.1
      (Or.inr (Or.inl (Or.inl rfl))) newsStore,
    ((apiConfigsPost_contract newsBody newsStore 5).2.2.1 "news" "http://x/list.m3u" "m3u"
      rfl rfl rfl (by decide) (by decide) (by decide)).1
      ⟨newsRecord, by simp [getAllConfigs, newsStore, KV.empty], rfl⟩,
    (((apiConfigsPost_contract newsBody KV.empty 5).2.2.1 "news" "http://x/list.m3u" "m3u"
      rfl rfl rfl (by decide) (by decide) (by decide)).2
      (by simp [getAllConfigs, KV.empty])).2.1⟩

/-! ## Session manager: expiry and sliding renewal -/

theorem checkAuth_of_session (cookie : Option String) (kv : KV) (now : Int)
    (sessionId : String) (sessionData : SessionData) (ttl : Nat)
    (hc : sessionIdOf cookie = some sessionId)
    (hs : kv.sessions sessionId = some (sessionData, ttl)) :
    checkAuth cookie kv now =
      if now - sessionData.loginTime > sevenDaysMs then
        (false, { kv with sessions := fun k => if k = sessionId then none else kv.sessions k })
      else
        (true, { kv with sessions := fun k =>
          if k = sessionId then some ({ sessionData with loginTime := now }, 604800)
          else kv.sessions k }) := by
  simp only [checkAuth, hc, hs]

theorem checkAuth_true_session (cookie : Option String) (kv : KV) (now : Int)
    (sessionId : String) (hc : sessionIdOf cookie = some sessionId)
    (h : (checkAuth cookie kv now).1 = true) :
    ∃ sessionData ttl, kv.sessions sessionId = some (sessionData, ttl) ∧
      now - sessionData.loginTime ≤ sevenDaysMs := by
  cases hs : kv.sessions sessionId with
  | none => simp [checkAuth, hc, hs] at h
  | some entry =>
    obtain ⟨sessionData, ttl⟩ := entry
    refine ⟨sessionData, ttl, rfl, ?_⟩
    rw [checkAuth_of_session cookie kv now sessionId sessionData ttl hc hs] at h
    by_contra hgt
    rw [if_pos (not_le.1 hgt)] at h
    simp at h

/-- C2: for every session record stored under the identifier named by the request
cookie and every instant `now`, `checkAuth` returns false with the record deleted
exactly when `now - loginTime` exceeds 604800000 ms; otherwise it returns true. A
record stamped eight days before `now` is rejected and removed, one stamped
exactly seven days before `now` is accepted. -/
theorem checkAuth_expires_after_seven_days (cookie : Option String) (kv : KV) (now : Int)
    (sessionId : String) (sessionData : SessionData) (ttl : Nat)
    (hc : sessionIdOf cookie = some sessionId)
    (hs : kv.sessions sessionId = some (sessionData, ttl)) :
    (((checkAuth cookie kv now).1 = false ∧ (checkAuth cookie kv now).2.sessions sessionId = none)
        ↔ now - sessionData.loginTime > 604800000) ∧
      (now - sessionData.loginTime ≤ 604800000 → (checkAuth cookie kv now).1 = true) ∧
      (sessionData.loginTime = now - 8 * dayMs →
        (checkAuth cookie kv now).1 = false ∧
          (checkAuth cookie kv now).2.sessions sessionId = none) ∧
      (sessionData.loginTime = now - 7 * dayMs → (checkAuth cookie kv now).1 = true) := by
  have h7 : sevenDaysMs = 604800000 := by decide
  have hd : dayMs = 86400000 := by decide
  rw [checkAuth_of_session cookie kv now sessionId sessionData ttl hc hs, h7, hd]
  refine ⟨?_, ?_, ?_, ?_⟩
  · constructor
    · intro h
      by_contra hle
      rw [if_neg hle] at h
      simp at h
    · intro h
      rw [if_pos h]
      simp
  · intro h
    rw [if_neg (not_lt.2 h)]
  · intro h
    have : now - sessionData.loginTime > 604800000 := by omega
    rw [if_pos this]
    simp
  · intro h
    have : ¬ now - sessionData.loginTime > 604800000 := by omega
    rw [if_neg this]

/-- C2, at the session `abc` stamped at instant 0: at eight days it is rejected and
removed, at exactly seven days it is accepted. -/
theorem checkAuth_expires_after_seven_days_witness :
    sessionIdOf (some "admin_session=abc") = some "abc" ∧
      (checkAuth (some "admin_session=abc") sessionStore (8 * dayMs)).1 = false ∧
      (checkAuth (some "admin_session=abc") sessionStore (8 * dayMs)).2.sessions "abc" = none ∧
      (checkAuth (some "admin_session=abc") sessionStore (7 * dayMs)).1 = true :=
  ⟨by decide,
    ((checkAuth_expires_after_seven_days (some "admin_session=abc") sessionStore (8 * dayMs)
      "abc" { username := "admin", loginTime := 0, userAgent := none } 604800
      (by decide) rfl).2.2.1 (by decide)).1,
    ((checkAuth_expires_after_seven_days (some "admin_session=abc") sessionStore (8 * dayMs)
      "abc" { username := "admin", loginTime := 0, userAgent := none } 604800
      (by decide) rfl).2.2.1 (by decide)).2,
    (checkAuth_expires_after_seven_days (some "admin_session=abc") sessionStore (7 * dayMs)
      "abc" { username := "admin", loginTime := 0, userAgent := none } 604800
      (by decide) rfl).2.2.2 (by decide)⟩

/-- C3: when `checkAuth` succeeds at instant `t1` for the session named by the
cookie, it stores the session again with `loginTime = t1` and a TTL of 604800
seconds, the other fields as they were; a second `checkAuth` at `t2` on the
resulting store succeeds exactly when `t2 - t1` is at most seven days, however
long ago the original login was. -/
theorem checkAuth_slides_expiry (cookie : Option String) (kv : KV) (t1 t2 : Int)
    (sessionId : String) (hc : sessionIdOf cookie = some sessionId)
    (h1 : (checkAuth cookie kv t1).1 = true) :
    (∃ sessionData ttl, kv.sessions sessionId = some (sessionData, ttl) ∧
        (checkAuth cookie kv t1).2.sessions sessionId =
          some ({ sessionData with loginTime := t1 }, 604800)) ∧
      ((checkAuth cookie (checkAuth cookie kv t1).2 t2).1 = true ↔ t2 - t1 ≤ 604800000) := by
  have h7 : sevenDaysMs = 604800000 := by decide
  obtain ⟨sessionData, ttl, hs, hle⟩ := checkAuth_true_session cookie kv t1 sessionId hc h1
  have hpost : (checkAuth cookie kv t1).2.sessions sessionId =
      some ({ sessionData with loginTime := t1 }, 604800) := by
    rw [checkAuth_of_session cookie kv t1 sessionId sessionData ttl hc hs,
      if_neg (not_lt.2 hle)]
    simp
  refine ⟨⟨sessionData, ttl, hs, hpost⟩, ?_⟩
  rw [checkAuth_of_session cookie _ t2 sessionId _ 604800 hc hpost, h7]
  constructor
  · intro h
    by_contra hgt
    rw [if_pos (not_le.1 hgt)] at h
    simp at h
  · intro h
    rw [if_neg (not_lt.2 h)]

/-- C3, for the session `abc` created at instant 0: validated at day 6, it is
stamped with day 6, and it validates again at day 12, more than seven days after
the login. -/
theorem checkAuth_slides_expiry_witness :
    sessionIdOf (some "admin_session=abc") = some "abc" ∧
      (checkAuth (some "admin_session=abc") sessionStore (6 * dayMs)).1 = true ∧
      12 * dayMs - 0 > sevenDaysMs ∧
      (checkAuth (some "admin_session=abc")
        (checkAuth (some "admin_session=abc") sessionStore (6 * dayMs)).2 (12 * dayMs)).1 = true :=
  ⟨by decide, by decide, by decide,
    (checkAuth_slides_expiry (some "admin_session=abc") sessionStore (6 * dayMs) (12 * dayMs)
      "abc" (by decide) (by decide)).2.2 (by decide)⟩

/-! ## Catalog: uniqueness invariant -/

theorem adminLogin_configs (config : Config) (body : Option LoginBody)
    (userAgent : Option String) (random : String) (kv : KV) (now : Int) :
    (adminLogin config body userAgent random kv now).2.configs = kv.configs := by
  unfold adminLogin
  split
  · rfl
  · split
    · split
      · split <;> rfl
      · rfl
    · rfl

theorem namesUnique_congr (kv kv2 : KV) (h : kv2.configs = kv.configs) :
    namesUnique kv2 ↔ namesUnique kv := by
  unfold namesUnique
  rw [getAllConfigs_congr kv kv2 h]

theorem apiConfigsPost_namesUnique (body : Option NewConfig) (kv : KV) (now : Int)
    (h : namesUnique kv) : namesUnique (apiConfigsPost body kv now).2 := by
  unfold apiConfigsPost
  split
  · exact h
  · split
    · exact h
    · split
      · rename_i directoryName sourceUrl extension _ _ _
        simp only
        split
        · exact h
        · rename_i hany
          rw [addLog_eq]
          unfold namesUnique at *
          simp only [getAllConfigs, saveConfigs, List.map_append, List.map_cons, List.map_nil]
          have hnot : directoryName ∉ (getAllConfigs kv).map (fun c => c.directoryName) := by
            intro hmem
            obtain ⟨c, hc, hcd⟩ := List.mem_map.1 hmem
            exact hany (List.any_eq_true.2 ⟨c, hc, by simp [hcd]⟩)
          exact List.Nodup.append h (List.nodup_singleton _)
            (by simpa [List.Disjoint] using hnot)
      · exact h

theorem apiConfigsDelete_namesUnique (dirName : String) (kv : KV) (now : Int)
    (h : namesUnique kv) : namesUnique (apiConfigsDelete dirName kv now).2 := by
  unfold apiConfigsDelete
  simp only
  split
  · exact h
  · rw [addLog_eq]
    unfold namesUnique at *
    simp only [getAllConfigs, saveConfigs]
    exact List.Nodup.sublist (List.Sublist.map _ (List.filter_sublist _)) h

theorem handleAdminRoutes_namesUnique (config : Config) (request : AdminRequest) (kv : KV)
    (h : namesUnique kv) : namesUnique (handleAdminRoutes config request kv).2 := by
  unfold handleAdminRoutes
  have hauth : namesUnique (checkAuth request.cookie kv request.now).2 :=
    (namesUnique_congr kv _ (checkAuth_configs request.cookie kv request.now)).2 h
  split
  · exact h
  · exact (namesUnique_congr kv _ (adminLogin_configs config _ _ _ kv request.now)).2 h
  · simp only
    split
    · exact apiConfigsPost_namesUnique _ _ _ hauth
    · exact hauth
  · simp only
    split
    · exact apiConfigsDelete_namesUnique _ _ _ hauth
    · exact hauth

theorem runRequests_namesUnique (config : Config) (requests : List AdminRequest) (kv : KV)
    (h : namesUnique kv) : namesUnique (runRequests config requests kv) := by
  induction requests generalizing kv with
  | nil => exact h
  | cons request rest ih =>
    exact ih _ (handleAdminRoutes_namesUnique config request kv h)

/-- Uniqueness for requests of strings: starting from a store whose catalog
document is absent or empty, after every finite sequence of admin requests handled
one after another (add-source and remove-source with string properties, any
cookie and instant, and also login and logout) the persisted catalog has no two
records with the same directoryName; this holds after every initial part of the
sequence as well. -/
theorem catalog_names_unique (config : Config) (requests : List AdminRequest) (kv : KV)
    (h : getAllConfigs kv = []) :
    namesUnique (runRequests config requests kv) ∧
      ∀ n, ((getAllConfigs (runRequests config (requests.take n) kv)).map
        (fun c => c.directoryName)).Nodup := by
  have h0 : namesUnique kv := by
    unfold namesUnique
    rw [h]
    exact List.nodup_nil
  exact ⟨runRequests_namesUnique config requests kv h0,
    fun n => runRequests_namesUnique config (requests.take n) kv h0⟩

/-- The sample session on the empty store: the authenticated requests go through,
the second `news` is refused, and the catalog ends as `sport`, `news`. -/
theorem catalog_names_unique_witness :
    getAllConfigs KV.empty = [] ∧
      (getAllConfigs (runRequests defaultConfig sampleRequests KV.empty)).map
        (fun c => c.directoryName) = ["sport", "news"] ∧
      namesUnique (runRequests defaultConfig sampleRequests KV.empty) :=
  ⟨rfl, by decide, (catalog_names_unique defaultConfig sampleRequests KV.empty rfl).1⟩

/-! ## Refresher: success path -/

theorem setLastUpdated_cons_succ (x : FileConfig) (xs : List FileConfig) (i : Nat) (now : Int) :
    setLastUpdated (x :: xs) (i + 1) now = x :: setLastUpdated xs i now := by
  unfold setLastUpdated
  simp only [List.get?_cons_succ]
  cases xs.get? i <;> rfl

theorem map_touch_of_not_mem (xs : List FileConfig) (r : FileConfig) (now : Int)
    (h : r ∉ xs) :
    xs.map (fun c => if c = r then { c with lastUpdated := some now } else c) = xs := by
  induction xs with
  | nil => rfl
  | cons x xs ih =>
    have hx : x ≠ r := fun e => h (e ▸ List.mem_cons_self _ _)
    have hxs : r ∉ xs := fun m => h (List.mem_cons_of_mem _ m)
    simp only [List.map_cons, if_neg hx, ih hxs]

theorem findIndex_setLastUpdated (configs : List FileConfig) (r : FileConfig) (now : Int)
    (hr : r ∈ configs) (hu : (configs.map (fun c => c.directoryName)).Nodup) :
    ∃ i, findIndex (fun c => decide (c.directoryName = r.directoryName)) configs = some i ∧
      setLastUpdated configs i now =
        configs.map (fun c => if c = r then { c with lastUpdated := some now } else c) := by
  induction configs with
  | nil => exact absurd hr (List.not_mem_nil _)
  | cons x xs ih =>
    rw [List.map_cons, List.nodup_cons] at hu
    by_cases hx : x.directoryName = r.directoryName
    · have hxr : x = r := by
        rcases List.mem_cons.1 hr with e | m
        · exact e.symm
        · exact absurd (List.mem_map.2 ⟨r, m, hx.symm⟩) hu.1
      subst hxr
      have hnot : x ∉ xs := fun m => hu.1 (List.mem_map.2 ⟨x, m, rfl⟩)
      refine ⟨0, by simp [findIndex], ?_⟩
      rw [List.map_cons, map_touch_of_not_mem xs x now hnot]
      simp [setLastUpdated]
    · have hxr : x ≠ r := fun e => hx (by rw [e])
      have hm : r ∈ xs := by
        rcases List.mem_cons.1 hr with e | m
        · exact absurd e.symm hxr
        · exact m
      obtain ⟨i, hi, hset⟩ := ih hm hu.2
      refine ⟨i + 1, by simp [findIndex, hx, hi], ?_⟩
      rw [setLastUpdated_cons_succ, hset, List.map_cons, if_neg hxr]

theorem downloadFile_ok (kv : KV) (r : FileConfig) (status : Nat) (b : String) (now : Int)
    (hr : r ∈ getAllConfigs kv) (hu : namesUnique kv) (hs : statusOk status = true) :
    downloadFile kv r (.response status (.ok b)) now =
      ({ success := true, content := some b, error := none },
        addLog { kv with
          files := fun k => if k = r.directoryName then some b else kv.files k
          configs := some ((getAllConfigs kv).map
            (fun c => if c = r then { c with lastUpdated := some now } else c)) }
          now "info" ("成功下载: " ++ r.directoryName ++ " (" ++ r.sourceUrl ++ ")")) := by
  obtain ⟨i, hi, hset⟩ := findIndex_setLastUpdated (getAllConfigs kv) r now hr hu
  have hg : getAllConfigs { kv with files := fun k =>
      if k = r.directoryName then some b else kv.files k } = getAllConfigs kv := rfl
  simp only [downloadFile, fetchContent, hs, if_true, hg, hi, hset, saveConfigs]

/-- C9: for every store whose catalog (with pairwise distinct directoryNames)
contains the record `r`, and every fetch answered with a status in 200-299 and
body `b`, `downloadFile` returns success with content `b`; the content cache under
`r.directoryName` holds exactly `b` and no other cache entry changes; the catalog
is the old one with `lastUpdated` of `r` set to the current instant, every other
record and every other field of `r` as before, same length and order; and the log
is the first 100 entries of one new `info` entry followed by the old log. -/
theorem downloadFile_success_updates (kv : KV) (r : FileConfig) (status : Nat) (b : String)
    (now : Int) (hr : r ∈ getAllConfigs kv) (hu : namesUnique kv)
    (hs : statusOk status = true) :
    (downloadFile kv r (.response status (.ok b)) now).1 =
        { success := true, content := some b, error := none } ∧
      (downloadFile kv r (.response status (.ok b)) now).2.files r.directoryName = some b ∧
      (∀ k, k ≠ r.directoryName →
        (downloadFile kv r (.response status (.ok b)) now).2.files k = kv.files k) ∧
      getAllConfigs (downloadFile kv r (.response status (.ok b)) now).2 =
        (getAllConfigs kv).map
          (fun c => if c = r then { c with lastUpdated := some now } else c) ∧
      (getAllConfigs (downloadFile kv r (.response status (.ok b)) now).2).length =
        (getAllConfigs kv).length ∧
      getLogs (downloadFile kv r (.response status (.ok b)) now).2 =
        (({ time := now, type := "info",
            message := "成功下载: " ++ r.directoryName ++ " (" ++ r.sourceUrl ++ ")" } : LogEntry)
          :: getLogs kv).take 100 := by
  rw [downloadFile_ok kv r status b now hr hu hs, addLog_eq]
  refine ⟨rfl, by simp, fun k hk => by simp [hk], rfl, ?_, rfl⟩
  simp [getAllConfigs]

/-- C9, end to end: `news` is added to the empty store and is listed with
`lastUpdated` absent; one scheduled batch with the stub fetch (status 200) leaves
the body cached under `news` and the record stamped with the instant of the run. -/
theorem downloadFile_success_updates_witness :
    getAllConfigs addedStore = [newsRecord] ∧
      newsRecord.lastUpdated = none ∧
      statusOk 200 = true ∧
      (scheduled (some addedStore) stubFetch 7 (fun _ => 9)).map (fun kv => kv.files "news") =
        some (some "#EXTM3U...") ∧
      (scheduled (some addedStore) stubFetch 7 (fun _ => 9)).map getAllConfigs =
        some [{ newsRecord with lastUpdated := some 9 }] :=
  ⟨by decide, rfl, by decide,
    congrArg some (downloadFile_success_updates { addedStore with lastScheduledCheck := some 7 }
      newsRecord 200 "#EXTM3U..." 9 (by decide) (by decide) (by decide)).2.1,
    congrArg some (downloadFile_success_updates { addedStore with lastScheduledCheck := some 7 }
      newsRecord 200 "#EXTM3U..." 9 (by decide) (by decide) (by decide)).2.2.2.1⟩

/-! ## Session manager: logout and login -/

theorem adminLogout_store (kv : KV) : (adminLogout kv).2 = kv := rfl

/-- C4, evaluated: `admin` logs in with `admin123` and `agentX`; the cookie of the
issued id validates and reads back `admin`; the logout request answers 302 without
any `Set-Cookie` header and leaves the session record in the store, so the same
cookie validates again after the logout, and again after a second logout. -/
theorem logout_keeps_session :
    adminLoggedIn.1.setCookie =
        some "admin_session=YWRtaW46MTAwMDphYmM; HttpOnly; Path=/admin; Max-Age=604800; SameSite=Strict" ∧
      (checkAuth adminCookie adminLoggedIn.2 1000).1 = true ∧
      getCurrentUsername adminCookie adminLoggedIn.2 = some "admin" ∧
      adminLoggedOut.1.status = 302 ∧
      adminLoggedOut.1.setCookie = none ∧
      adminLoggedOut.2.sessions "YWRtaW46MTAwMDphYmM" =
        some ({ username := "admin", loginTime := 1000, userAgent := some "agentX" }, 604800) ∧
      (checkAuth adminCookie adminLoggedOut.2 3000).1 = true ∧
      (checkAuth adminCookie (adminLogout adminLoggedOut.2).2 3000).1 = true := by
  decide

/-- C8, evaluated: with the administrator name `管理员` configured, a login request
carrying exactly the configured name and password is answered 400, no cookie is
issued and no session is stored, so no cookie validates afterwards. -/
theorem login_fails_for_non_latin1_username :
    (getConfig chineseEnv).ADMIN_USERNAME = "管理员" ∧
      chineseBody.username = some (getConfig chineseEnv).ADMIN_USERNAME ∧
      chineseBody.password = some (getConfig chineseEnv).ADMIN_PASSWORD ∧
      generateSessionId "管理员" 1000 "abc" = none ∧
      (adminLogin (getConfig chineseEnv) (some chineseBody) (some "agentX") "abc"
        KV.empty 1000).1 = badRequest "登录请求格式错误" ∧
      (∀ (cookie : Option String) (later : Int),
        (checkAuth cookie (adminLogin (getConfig chineseEnv) (some chineseBody)
          (some "agentX") "abc" KV.empty 1000).2 later).1 = false) := by
  refine ⟨by decide, by decide, by decide, by decide, by decide, ?_⟩
  intro cookie later
  have hstore : (adminLogin (getConfig chineseEnv) (some chineseBody) (some "agentX") "abc"
      KV.empty 1000).2 = KV.empty := by rfl
  rw [hstore]
  unfold checkAuth
  cases sessionIdOf cookie <;> rfl

/-! ## Session identifiers -/

theorem digitChar_latin1 (k : Nat) (h : k < 10) : (Nat.digitChar k).toNat ≤ 255 := by
  interval_cases k <;> decide

theorem toDigitsCore_latin1 (fuel n : Nat) (ds : List Char)
    (h : ∀ c ∈ ds, c.toNat ≤ 255) : ∀ c ∈ Nat.toDigitsCore 10 fuel n ds, c.toNat ≤ 255 := by
  induction fuel generalizing n ds with
  | zero => exact h
  | succ fuel ih =>
    have hcons : ∀ c ∈ Nat.digitChar (n % 10) :: ds, c.toNat ≤ 255 := by
      intro c hc
      rcases List.mem_cons.1 hc with e | m
      · rw [e]
        exact digitChar_latin1 _ (Nat.mod_lt _ (by decide))
      · exact h c m
    unfold Nat.toDigitsCore
    simp only
    split
    · exact hcons
    · exact ih _ _ hcons

theorem natToString_latin1 (n : Nat) : ∀ c ∈ (toString n).data, c.toNat ≤ 255 :=
  toDigitsCore_latin1 (n + 1) n [] (fun _ h => absurd h (List.not_mem_nil _))

theorem intToString_latin1 (i : Int) : ∀ c ∈ (toString i).data, c.toNat ≤ 255 := by
  cases i with
  | ofNat n => exact natToString_latin1 n
  | negSucc n =>
    intro c hc
    have hs : (toString (Int.negSucc n)).data = '-' :: (toString (n + 1)).data := rfl
    rw [hs] at hc
    rcases List.mem_cons.1 hc with e | m
    · rw [e]; decide
    · exact natToString_latin1 _ c m

theorem base64Digit_ne_semicolon (n : Nat) : base64Digit n ≠ ';' := by
  by_cases h : n < 64
  · interval_cases n <;> decide
  · have hlen : base64Alphabet.length ≤ n := by
      have : base64Alphabet.length = 64 := by decide
      omega
    unfold base64Digit
    rw [List.getD_eq_default _ _ hlen]
    decide

theorem base64Encode_ne_semicolon : ∀ (l : List Nat), ∀ c ∈ base64Encode l, c ≠ ';'
  | [], c, h => by simp [base64Encode] at h
  | [a], c, h => by
    simp only [base64Encode, List.mem_cons, List.mem_singleton, List.not_mem_nil,
      or_false] at h
    rcases h with h | h | h | h <;> rw [h]
    · exact base64Digit_ne_semicolon _
    · exact base64Digit_ne_semicolon _
    · decide
    · decide
  | [a, b], c, h => by
    simp only [base64Encode, List.mem_cons, List.mem_singleton, List.not_mem_nil,
      or_false] at h
    rcases h with h | h | h | h <;> rw [h]
    · exact base64Digit_ne_semicolon _
    · exact base64Digit_ne_semicolon _
    · exact base64Digit_ne_semicolon _
    · decide
  | a :: b :: d :: rest, c, h => by
    simp only [base64Encode, List.mem_cons] at h
    rcases h with h | h | h | h | h
    · rw [h]; exact base64Digit_ne_semicolon _
    · rw [h]; exact base64Digit_ne_semicolon _
    · rw [h]; exact base64Digit_ne_semicolon _
    · rw [h]; exact base64Digit_ne_semicolon _
    · exact base64Encode_ne_semicolon rest c h

theorem keptChar_second_digit (a : Nat) : keptChar (base64Digit (a % 4 * 16 + 58 / 16)) = true := by
  have h : a % 4 < 4 := Nat.mod_lt _ (by decide)
  interval_cases a % 4 <;> decide

theorem base64Encode_exists_kept : ∀ (l : List Nat), 58 ∈ l →
    ∃ c ∈ base64Encode l, keptChar c = true
  | [], h => absurd h (List.not_mem_nil _)
  | [a], h => by
    have ha : 58 = a := by simpa using h
    subst ha
    exact ⟨base64Digit (58 / 4), by simp [base64Encode], by decide⟩
  | [a, b], h => by
    simp only [List.mem_cons, List.mem_singleton, List.not_mem_nil, or_false] at h
    rcases h with h | h
    · subst h
      exact ⟨base64Digit (58 / 4), by simp [base64Encode], by decide⟩
    · subst h
      exact ⟨base64Digit (a % 4 * 16 + 58 / 16), by simp [base64Encode],
        keptChar_second_digit a⟩
  | a :: b :: d :: rest, h => by
    simp only [List.mem_cons] at h
    rcases h with h | h | h | h
    · subst h
      exact ⟨base64Digit (58 / 4), by simp [base64Encode], by decide⟩
    · subst h
      exact ⟨base64Digit (a % 4 * 16 + 58 / 16), by simp [base64Encode],
        keptChar_second_digit a⟩
    · subst h
      exact ⟨base64Digit (58 % 64), by simp [base64Encode], by decide⟩
    · obtain ⟨c, hc, hk⟩ := base64Encode_exists_kept rest h
      exact ⟨c, by simp [base64Encode, hc], hk⟩

theorem generateSessionId_latin1 (username random : String) (now : Int)
    (h : ∀ c ∈ username.data ++ random.data, c.toNat ≤ 255) :
    ∃ id, generateSessionId username now random = some id ∧ id.data ≠ [] ∧
      ∀ c ∈ id.data, c ≠ ';' := by
  have hdata : (username ++ ":" ++ toString now ++ ":" ++ random).data =
      username.data ++ ':' :: ((toString now).data ++ ':' :: random.data) := by
    simp [String.data_append]
  have hall : (username ++ ":" ++ toString now ++ ":" ++ random).data.all
      (fun c => decide (c.toNat ≤ 255)) = true := by
    rw [hdata, List.all_eq_true]
    intro c hc
    simp only [List.mem_append, List.mem_cons] at hc
    simp only [decide_eq_true_eq]
    rcases hc with hc | hc | hc | hc | hc
    · exact h c (List.mem_append_left _ hc)
    · rw [hc]; decide
    · exact intToString_latin1 now c hc
    · rw [hc]; decide
    · exact h c (List.mem_append_right _ hc)
  have hcolon : 58 ∈ (username ++ ":" ++ toString now ++ ":" ++ random).data.map Char.toNat := by
    rw [hdata]
    exact List.mem_map.2 ⟨':', by simp, by decide⟩
  obtain ⟨c, hc, hk⟩ := base64Encode_exists_kept _ hcolon
  have hgen : generateSessionId username now random = some (String.mk (List.filter keptChar
      (base64Encode ((username ++ ":" ++ toString now ++ ":" ++ random).data.map
        Char.toNat)))) := by
    simp only [generateSessionId, btoa, hall, if_true]
  refine ⟨_, hgen, ?_, ?_⟩
  · intro hnil
    exact List.filter_eq_nil_iff.1 hnil c hc hk
  · intro x hx
    exact base64Encode_ne_semicolon _ x (List.mem_filter.1 hx).1

theorem matchSession_own_cookie (id : List Char) (h1 : id ≠ [])
    (h2 : ∀ c ∈ id, c ≠ ';') : matchSession ("admin_session=".data ++ id) = some id := by
  have hcons : "admin_session=".data ++ id = 'a' :: ("dmin_session=".data ++ id) := rfl
  have hpre : "admin_session=".data.isPrefixOf ('a' :: ("dmin_session=".data ++ id)) = true := by
    rw [← hcons]
    exact List.isPrefixOf_iff_prefix.2 (List.prefix_append _ _)
  have hdrop : ('a' :: ("dmin_session=".data ++ id)).drop 14 = id := by
    rw [← hcons]
    exact List.drop_left "admin_session=".data id
  have htake : id.takeWhile (fun x => x != ';') = id :=
    List.takeWhile_eq_self_iff.2 (fun c hc => by simpa using h2 c hc)
  rw [hcons, matchSession, if_pos hpre, hdrop, htake]
  cases id with
  | nil => exact absurd rfl h1
  | cons y ys => rfl

theorem sessionIdOf_own_cookie (id : String) (h1 : id.data ≠ [])
    (h2 : ∀ c ∈ id.data, c ≠ ';') : sessionIdOf (some ("admin_session=" ++ id)) = some id := by
  have hne : ("admin_session=" ++ id) ≠ "" := by
    intro h
    have := congrArg String.data h
    simp [String.data_append] at this
  simp only [sessionIdOf, if_neg hne, String.data_append, matchSession_own_cookie id.data h1 h2]

/-- Login followed by validation, for credentials that `btoa` accepts: when the
request carries the configured name and password, and the name and the random
part have only characters with codes up to 255, the login answers 200, stores a
session and issues its id in `Set-Cookie`; a cookie carrying that id validates at
every instant within seven days of the login, and the name read back for it is
the name of the request. -/
theorem login_session_validates (config : Config) (body : LoginBody)
    (userAgent : Option String) (random : String) (kv : KV) (now later : Int)
    (hu : body.username = some config.ADMIN_USERNAME)
    (hp : body.password = some config.ADMIN_PASSWORD)
    (hl : ∀ c ∈ config.ADMIN_USERNAME.data ++ random.data, c.toNat ≤ 255)
    (hlater : later - now ≤ 604800000) :
    ∃ sessionId,
      (adminLogin config (some body) userAgent random kv now).1.status = 200 ∧
      (adminLogin config (some body) userAgent random kv now).1.setCookie =
        some ("admin_session=" ++ sessionId ++
          "; HttpOnly; Path=/admin; Max-Age=604800; SameSite=Strict") ∧
      (adminLogin config (some body) userAgent random kv now).2.sessions sessionId =
        some ({ username := config.ADMIN_USERNAME, loginTime := now, userAgent := userAgent },
          604800) ∧
      (checkAuth (some ("admin_session=" ++ sessionId))
        (adminLogin config (some body) userAgent random kv now).2 later).1 = true ∧
      getCurrentUsername (some ("admin_session=" ++ sessionId))
        (adminLogin config (some body) userAgent random kv now).2 = body.username := by
  obtain ⟨id, hid, hne, hsemi⟩ := generateSessionId_latin1 config.ADMIN_USERNAME random now hl
  have hcookie := sessionIdOf_own_cookie id hne hsemi
  have hlogin : adminLogin config (some body) userAgent random kv now =
      ({ status := 200, body := .success,
         setCookie := some ("admin_session=" ++ id ++
           "; HttpOnly; Path=/admin; Max-Age=604800; SameSite=Strict"),
         location := none },
       { kv with sessions := fun k =>
           if k = id then
             some ({ username := config.ADMIN_USERNAME, loginTime := now,
                     userAgent := userAgent }, 604800)
           else kv.sessions k }) := by
    simp only [adminLogin, hu, hp, and_self, if_true, hid]
  have h7 : sevenDaysMs = 604800000 := by decide
  refine ⟨id, ?_, ?_, ?_, ?_, ?_⟩
  · rw [hlogin]
  · rw [hlogin]
  · rw [hlogin]; simp
  · rw [hlogin, checkAuth_of_session _ _ later id
      { username := config.ADMIN_USERNAME, loginTime := now, userAgent := userAgent } 604800
      hcookie (by simp), h7]
    rw [if_neg (not_lt.2 hlater)]
  · rw [hlogin, hu]
    simp [getCurrentUsername, hcookie]

/-! ## Scheduled batch -/

theorem fetchContent_ok_cases (outcome : FetchOutcome) (b : String)
    (h : fetchContent outcome = .ok b) :
    ∃ status, outcome = .response status (.ok b) ∧ statusOk status = true := by
  cases outcome with
  | rejected msg => simp [fetchContent] at h
  | response status body =>
    by_cases hs : statusOk status = true
    · simp only [fetchContent, hs, if_true] at h
      exact ⟨status, by rw [h], hs⟩
    · simp [fetchContent, hs] at h

theorem downloadFile_of_error (kv : KV) (c : FileConfig) (outcome : FetchOutcome) (now : Int)
    (message : String) (h : fetchContent outcome = .error message) :
    (downloadFile kv c outcome now).2.configs = kv.configs ∧
      (downloadFile kv c outcome now).2.files = kv.files ∧
      (downloadFile kv c outcome now).2.lastScheduledCheck = kv.lastScheduledCheck := by
  rw [downloadFile_error kv c outcome now message h, addLog_eq]
  exact ⟨rfl, rfl, rfl⟩

theorem downloadFile_lastScheduledCheck (kv : KV) (c : FileConfig) (outcome : FetchOutcome)
    (now : Int) :
    (downloadFile kv c outcome now).2.lastScheduledCheck = kv.lastScheduledCheck := by
  unfold downloadFile
  split
  · simp only [addLog_eq]
    split <;> rfl
  · simp only [addLog_eq]

theorem downloadFile_files (kv : KV) (c : FileConfig) (outcome : FetchOutcome) (now : Int) :
    (downloadFile kv c outcome now).2.files =
      match fetchContent outcome with
      | .ok content => fun k => if k = c.directoryName then some content else kv.files k
      | .error _ => kv.files := by
  unfold downloadFile
  split
  · simp only [addLog_eq]
    split <;> rfl
  · simp only [addLog_eq]

theorem not_mem_of_names_nodup (done rest : List FileConfig) (c : FileConfig)
    (hu : ((done ++ c :: rest).map (fun x => x.directoryName)).Nodup) :
    c ∉ done ∧ c ∉ rest ∧
      (∀ x ∈ rest, x.directoryName ≠ c.directoryName) := by
  rw [List.map_append, List.map_cons, List.nodup_append] at hu
  obtain ⟨-, hcr, hdis⟩ := hu
  rw [List.nodup_cons] at hcr
  refine ⟨?_, ?_, ?_⟩
  · intro hm
    exact hdis (List.mem_map.2 ⟨c, hm, rfl⟩) (List.mem_cons_self _ _)
  · intro hm
    exact hcr.1 (List.mem_map.2 ⟨c, hm, rfl⟩)
  · intro x hx hxc
    exact hcr.1 (List.mem_map.2 ⟨x, hx, hxc⟩)

theorem downloadFile_catalog_step (fetch : Nat → String → FetchOutcome) (clock : Nat → Int)
    (i : Nat) (kv : KV) (c : FileConfig) (done rest : List FileConfig)
    (hcat : getAllConfigs kv = done ++ c :: rest)
    (hu : ((done ++ c :: rest).map (fun x => x.directoryName)).Nodup) :
    getAllConfigs (downloadFile kv c (fetch i c.sourceUrl) (clock i)).2 =
      (done ++ [refreshed fetch clock (i, c)]) ++ rest := by
  obtain ⟨hnd, hnr, -⟩ := not_mem_of_names_nodup done rest c hu
  cases h : fetchContent (fetch i c.sourceUrl) with
  | error message =>
    have hc := (downloadFile_of_error kv c _ (clock i) message h).1
    rw [getAllConfigs_congr kv _ hc, hcat]
    simp [refreshed, h]
  | ok b =>
    obtain ⟨status, ho, hs⟩ := fetchContent_ok_cases _ b h
    have hmem : c ∈ getAllConfigs kv := by
      rw [hcat]
      exact List.mem_append_right _ (List.mem_cons_self _ _)
    have hnu : namesUnique kv := by
      unfold namesUnique
      rw [hcat]
      exact hu
    rw [ho, downloadFile_ok kv c status b (clock i) hmem hnu hs, addLog_eq]
    simp only [getAllConfigs, refreshed, h]
    have hcat2 : (match kv.configs with
        | some cs => cs
        | none => []) = done ++ c :: rest := hcat
    rw [hcat2, List.map_append, List.map_cons, map_touch_of_not_mem done c (clock i) hnd,
      map_touch_of_not_mem rest c (clock i) hnr, if_pos rfl]
    simp

theorem snd_mem_of_mem_enumFrom (rest : List FileConfig) (i : Nat) (p : Nat × FileConfig)
    (h : p ∈ rest.enumFrom i) : p.2 ∈ rest := by
  have hm : p.2 ∈ (rest.enumFrom i).map Prod.snd := List.mem_map.2 ⟨p, h, rfl⟩
  rwa [List.enumFrom_map_snd] at hm

theorem scheduledLoop_lastScheduledCheck (fetch : Nat → String → FetchOutcome)
    (clock : Nat → Int) (rest : List FileConfig) (i : Nat) (kv : KV) :
    (scheduledLoop fetch clock i rest kv).lastScheduledCheck = kv.lastScheduledCheck := by
  induction rest generalizing i kv with
  | nil => rfl
  | cons c rest ih =>
    rw [scheduledLoop, ih, downloadFile_lastScheduledCheck]

theorem scheduledLoop_spec (fetch : Nat → String → FetchOutcome) (clock : Nat → Int)
    (rest : List FileConfig) (i : Nat) (done : List FileConfig) (kv : KV)
    (hcat : getAllConfigs kv = done ++ rest)
    (hu : ((done ++ rest).map (fun x => x.directoryName)).Nodup) :
    getAllConfigs (scheduledLoop fetch clock i rest kv) =
        done ++ (rest.enumFrom i).map (refreshed fetch clock) ∧
      (∀ p ∈ rest.enumFrom i, ∀ b, fetchContent (fetch p.1 p.2.sourceUrl) = .ok b →
        (scheduledLoop fetch clock i rest kv).files p.2.directoryName = some b) ∧
      (∀ k, (∀ p ∈ rest.enumFrom i, p.2.directoryName = k →
          ∃ message, fetchContent (fetch p.1 p.2.sourceUrl) = .error message) →
        (scheduledLoop fetch clock i rest kv).files k = kv.files k) := by
  induction rest generalizing i done kv with
  | nil =>
    refine ⟨?_, ?_, ?_⟩
    · simpa [scheduledLoop] using hcat
    · intro p hp
      simp at hp
    · intro k _
      rfl
  | cons c rest ih =>
    obtain ⟨-, -, hrest⟩ := not_mem_of_names_nodup done rest c hu
    have hstep := downloadFile_catalog_step fetch clock i kv c done rest hcat hu
    have hname : (refreshed fetch clock (i, c)).directoryName = c.directoryName := by
      unfold refreshed
      split <;> rfl
    have hu2 : (((done ++ [refreshed fetch clock (i, c)]) ++ rest).map
        (fun x => x.directoryName)).Nodup := by
      simpa [hname] using hu
    obtain ⟨ih1, ih2, ih3⟩ := ih (i + 1) (done ++ [refreshed fetch clock (i, c)])
      (downloadFile kv c (fetch i c.sourceUrl) (clock i)).2 hstep hu2
    have hfiles := downloadFile_files kv c (fetch i c.sourceUrl) (clock i)
    refine ⟨?_, ?_, ?_⟩
    · rw [scheduledLoop, ih1]
      simp [List.enumFrom_cons]
    · intro p hp b hb
      rw [List.enumFrom_cons, List.mem_cons] at hp
      rw [scheduledLoop]
      rcases hp with hp | hp
      · subst hp
        rw [ih3 c.directoryName, hfiles]
        · simp only at hb
          simp [hb]
        · intro q hq hqc
          exact absurd hqc (hrest q.2 (snd_mem_of_mem_enumFrom rest (i + 1) q hq))
      · exact ih2 p hp b hb
    · intro k hk
      rw [scheduledLoop, ih3 k (fun q hq hqk => hk q (by
        rw [List.enumFrom_cons]
        exact List.mem_cons_of_mem _ hq) hqk), hfiles]
      cases hfc : fetchContent (fetch i c.sourceUrl) with
      | error message => rfl
      | ok content =>
        by_cases hkc : k = c.directoryName
        · obtain ⟨message, hm⟩ := hk (i, c) (by
            rw [List.enumFrom_cons]
            exact List.mem_cons_self _ _) hkc.symm
          simp only at hm
          rw [hfc] at hm
          cases hm
        · simp [hkc]

theorem scheduledCalls_items (fetch : Nat → String → FetchOutcome) (clock : Nat → Int)
    (rest : List FileConfig) (i : Nat) (kv : KV) :
    (scheduledCalls fetch clock i rest kv).map (fun call => (call.fileConfig, call.outcome, call.now)) =
      (rest.enumFrom i).map (fun p => (p.2, fetch p.1 p.2.sourceUrl, clock p.1)) := by
  induction rest generalizing i kv with
  | nil => rfl
  | cons c rest ih =>
    simp only [scheduledCalls, List.map_cons, List.enumFrom_cons, ih]

theorem scheduledCalls_foldl (fetch : Nat → String → FetchOutcome) (clock : Nat → Int)
    (rest : List FileConfig) (i : Nat) (kv : KV) :
    (scheduledCalls fetch clock i rest kv).foldl
        (fun store call => (downloadFile store call.fileConfig call.outcome call.now).2) kv =
      scheduledLoop fetch clock i rest kv := by
  induction rest generalizing i kv with
  | nil => rfl
  | cons c rest ih =>
    simp only [scheduledCalls, List.foldl_cons, scheduledLoop, ih]

theorem scheduledCalls_before (fetch : Nat → String → FetchOutcome) (clock : Nat → Int)
    (rest : List FileConfig) (i : Nat) (kv : KV) :
    ∀ call ∈ scheduledCalls fetch clock i rest kv,
      call.before.lastScheduledCheck = kv.lastScheduledCheck := by
  induction rest generalizing i kv with
  | nil =>
    intro call h
    simp [scheduledCalls] at h
  | cons c rest ih =>
    intro call h
    simp only [scheduledCalls, List.mem_cons] at h
    rcases h with h | h
    · rw [h]
    · rw [ih _ _ call h, downloadFile_lastScheduledCheck]

theorem scheduledLoopSteps_eq (fetch : Nat → String → FetchOutcome) (clock : Nat → Int)
    (rest : List FileConfig) (i : Nat) (kv : KV) :
    scheduledLoopSteps fetch clock i rest kv =
      ((scheduledCalls fetch clock i rest kv).map BatchStep.download,
        scheduledLoop fetch clock i rest kv) := by
  induction rest generalizing i kv with
  | nil => rfl
  | cons c rest ih =>
    simp only [scheduledLoopSteps, scheduledCalls, scheduledLoop, List.map_cons, ih]

theorem scheduledRun_eq (kv : KV) (fetch : Nat → String → FetchOutcome) (start : Int)
    (clock : Nat → Int) :
    scheduledRun (some kv) fetch start clock =
      some (BatchStep.putLastScheduledCheck kv start ::
          (scheduledCalls fetch clock 0 (getAllConfigs kv)
            { kv with lastScheduledCheck := some start }).map BatchStep.download,
        scheduledLoop fetch clock 0 (getAllConfigs kv)
          { kv with lastScheduledCheck := some start }) := by
  simp only [scheduledRun, scheduledLoopSteps_eq]

/-- C11: for every store, every assignment of fetch outcomes and every clock, one
run of `scheduled` on a bound store returns, and the steps it makes, in program
order, are: first the put of `last_scheduled_check` on the store it was given,
then the invocations `calls` of `downloadFile`, and nothing else. (1) The
invocations are exactly the records of the catalog snapshot, once each and in
catalog order, item `i` with the outcome of its own fetch, whatever the outcomes of
the earlier items. (2) The store `scheduled` leaves is the result of these
invocations one after another on the stamped store. (3) Every invocation, the
first one included, starts from a store that already holds the
`last_scheduled_check` of this run, and the run ends with it. When the
directoryNames of the catalog are pairwise distinct: (4) the catalog at the end is
the snapshot, in order, with `lastUpdated` stamped on exactly the records whose own
fetch gave a content; (5) every such record ends the run with that content cached
under its name and with `lastUpdated` set to the instant of its item; (6) a cache
key is as before the run when every item of that name failed. -/
theorem scheduled_refreshes_every_record (kv : KV) (fetch : Nat → String → FetchOutcome)
    (start : Int) (clock : Nat → Int) :
    ∃ (calls : List DownloadCall) (final : KV),
      scheduledRun (some kv) fetch start clock =
        some (BatchStep.putLastScheduledCheck kv start :: calls.map BatchStep.download,
          final) ∧
      scheduled (some kv) fetch start clock = some final ∧
      calls.map (fun call => (call.fileConfig, call.outcome, call.now)) =
        ((getAllConfigs kv).enumFrom 0).map (fun p => (p.2, fetch p.1 p.2.sourceUrl, clock p.1)) ∧
      calls.map (fun call => call.fileConfig) = getAllConfigs kv ∧
      calls = scheduledCalls fetch clock 0 (getAllConfigs kv)
        { kv with lastScheduledCheck := some start } ∧
      calls.foldl
          (fun store call => (downloadFile store call.fileConfig call.outcome call.now).2)
          { kv with lastScheduledCheck := some start } = final ∧
      (∀ call ∈ calls, call.before.lastScheduledCheck = some start) ∧
      final.lastScheduledCheck = some start ∧
      (namesUnique kv →
        getAllConfigs final = ((getAllConfigs kv).enumFrom 0).map (refreshed fetch clock) ∧
        (∀ p ∈ (getAllConfigs kv).enumFrom 0, ∀ b,
          fetchContent (fetch p.1 p.2.sourceUrl) = .ok b →
            final.files p.2.directoryName = some b ∧
            { p.2 with lastUpdated := some (clock p.1) } ∈ getAllConfigs final) ∧
        (∀ k, (∀ p ∈ (getAllConfigs kv).enumFrom 0, p.2.directoryName = k →
            ∃ message, fetchContent (fetch p.1 p.2.sourceUrl) = .error message) →
          final.files k = kv.files k)) := by
  refine ⟨scheduledCalls fetch clock 0 (getAllConfigs kv)
      { kv with lastScheduledCheck := some start },
    scheduledLoop fetch clock 0 (getAllConfigs kv) { kv with lastScheduledCheck := some start },
    scheduledRun_eq kv fetch start clock, ?_, scheduledCalls_items _ _ _ _ _, ?_, rfl,
    scheduledCalls_foldl _ _ _ _ _, ?_, ?_, ?_⟩
  · simp only [scheduled, scheduledRun_eq, Option.map_some']
  · have h := congrArg (List.map (fun t : FileConfig × FetchOutcome × Int => t.1))
      (scheduledCalls_items fetch clock (getAllConfigs kv) 0
        { kv with lastScheduledCheck := some start })
    simp only [List.map_map] at h
    have hsnd : (List.map ((fun t : FileConfig × FetchOutcome × Int => t.1) ∘
        fun p : Nat × FileConfig => (p.2, fetch p.1 p.2.sourceUrl, clock p.1))
        ((getAllConfigs kv).enumFrom 0)) = getAllConfigs kv := by
      have : ((fun t : FileConfig × FetchOutcome × Int => t.1) ∘
          fun p : Nat × FileConfig => (p.2, fetch p.1 p.2.sourceUrl, clock p.1)) = Prod.snd := rfl
      rw [this, List.enumFrom_map_snd]
    rw [hsnd] at h
    exact h
  · intro call hcall
    exact scheduledCalls_before fetch clock _ 0 _ call hcall
  · rw [scheduledLoop_lastScheduledCheck]
  · intro hu
    have hcat : getAllConfigs { kv with lastScheduledCheck := some start } =
        [] ++ getAllConfigs kv := rfl
    obtain ⟨h1, h2, h3⟩ := scheduledLoop_spec fetch clock (getAllConfigs kv) 0 []
      { kv with lastScheduledCheck := some start } hcat (by simpa using hu)
    refine ⟨by simpa using h1, ?_, h3⟩
    intro p hp b hb
    refine ⟨h2 p hp b hb, ?_⟩
    rw [h1, List.nil_append]
    refine List.mem_map.2 ⟨p, hp, ?_⟩
    simp [refreshed, hb]

/-- C11, on the catalog `a`, `b`, `c` with a fetch that fails for `a` (transport)
and `b` (status 500) and succeeds for `c`: the run puts the check timestamp first
and then makes three invocations; it still reaches `c`, whose content is cached
and whose `lastUpdated` is the instant of the third item; `a` and `b` stay
uncached and unstamped, and the check timestamp is the start. -/
theorem scheduled_refreshes_every_record_witness :
    namesUnique threeStore ∧
      ∃ (calls : List DownloadCall) (final : KV),
        scheduledRun (some threeStore) flakyFetch 7 itemClock =
          some (BatchStep.putLastScheduledCheck threeStore 7 :: calls.map BatchStep.download,
            final) ∧
        scheduled (some threeStore) flakyFetch 7 itemClock = some final ∧
        calls.map (fun call => call.fileConfig) = [recordA, recordB, recordC] ∧
        final.lastScheduledCheck = some 7 ∧
        final.files "c" = some "#EXTM3U c" ∧
        final.files "a" = threeStore.files "a" ∧
        getAllConfigs final =
          ((getAllConfigs threeStore).enumFrom 0).map (refreshed flakyFetch itemClock) ∧
        ((getAllConfigs threeStore).enumFrom 0).map (refreshed flakyFetch itemClock) =
          [recordA, recordB, { recordC with lastUpdated := some 12 }] := by
  obtain ⟨calls, final, hrun, hf, -, hrecords, -, -, -, hcheck, hrest⟩ :=
    scheduled_refreshes_every_record threeStore flakyFetch 7 itemClock
  obtain ⟨hcat, hok, hfail⟩ := hrest (by decide)
  refine ⟨by decide, calls, final, hrun, hf, hrecords, hcheck, ?_, ?_, hcat, by decide⟩
  · exact (hok (2, recordC) (by decide) "#EXTM3U c" rfl).1
  · refine hfail "a" ?_
    intro p hp hname
    have hp2 : p = (0, recordA) ∨ p = (1, recordB) ∨ p = (2, recordC) := by
      simpa [getAllConfigs, threeStore, threeRecords, KV.empty, List.enumFrom] using hp
    rcases hp2 with h | h | h
    · subst h
      exact ⟨"connect timeout", rfl⟩
    · subst h
      exact absurd hname (by decide)
    · subst h
      exact absurd hname (by decide)

/-! ## Catalog routes on JSON bodies -/

theorem FileConfig.toJson_afterJsonRoundTrip (c : FileConfig) :
    c.toJson.afterJsonRoundTrip = c.toJson := rfl

theorem map_toJson_afterJsonRoundTrip (configs : List FileConfig) :
    (configs.map FileConfig.toJson).map JsonConfig.afterJsonRoundTrip =
      configs.map FileConfig.toJson := by
  rw [List.map_map]
  exact List.map_congr_left (fun c _ => FileConfig.toJson_afterJsonRoundTrip c)

theorem getAllConfigsJson_toJson (kv : KV) :
    getAllConfigsJson kv.toJson = (getAllConfigs kv).map FileConfig.toJson := by
  unfold getAllConfigsJson getAllConfigs KV.toJson
  cases kv.configs <;> rfl

theorem saveConfigsJson_toJson (kv : KV) (configs : List FileConfig) :
    saveConfigsJson kv.toJson (configs.map FileConfig.toJson) = (saveConfigs kv configs).toJson := by
  unfold saveConfigsJson
  rw [map_toJson_afterJsonRoundTrip]
  rfl

theorem addLogJson_toJson (kv : KV) (now : Int) (type message : String) :
    addLogJson kv.toJson now type message = (addLog kv now type message).toJson := rfl

theorem jsTruthy_string (v : Option String) :
    jsTruthy (v.map JsonValue.string) = truthy v := by
  cases v <;> rfl

theorem strictEquals_string (a b : String) :
    strictEquals (.string a) (.string b) = decide (a = b) := by
  by_cases h : a = b <;> simp [strictEquals, h]

theorem any_strictEquals_toJson (configs : List FileConfig) (d : String) :
    (configs.map FileConfig.toJson).any (fun c => strictEquals c.directoryName (.string d)) =
      configs.any (fun c => decide (c.directoryName = d)) := by
  induction configs with
  | nil => rfl
  | cons c rest ih =>
    rw [List.map_cons, List.any_cons, List.any_cons, ih]
    have hc : strictEquals c.toJson.directoryName (.string d) =
        decide (c.directoryName = d) := strictEquals_string c.directoryName d
    rw [hc]

theorem filter_strictEquals_toJson (configs : List FileConfig) (d : String) :
    (configs.map FileConfig.toJson).filter
        (fun c => !strictEquals c.directoryName (.string d)) =
      (configs.filter (fun c => decide (c.directoryName ≠ d))).map FileConfig.toJson := by
  induction configs with
  | nil => rfl
  | cons c rest ih =>
    have hc : (!strictEquals c.toJson.directoryName (.string d)) =
        decide (c.directoryName ≠ d) := by
      show (!strictEquals (.string c.directoryName) (.string d)) = _
      rw [strictEquals_string]
      simp
    rw [List.map_cons, List.filter_cons, List.filter_cons, ih, hc]
    split <;> rfl

/-- On bodies and catalogs of strings the JSON route is `apiConfigsPost`: the same
response, and the same store. -/
theorem apiConfigsPostJson_refines (body : Option NewConfig) (kv : KV) (now : Int) :
    apiConfigsPostJson (body.map NewConfig.toJson) kv.toJson now =
      ((apiConfigsPost body kv now).1, (apiConfigsPost body kv now).2.toJson) := by
  cases body with
  | none => rfl
  | some b =>
    obtain ⟨dn, su, ex, extra⟩ := b
    simp only [Option.map_some', apiConfigsPostJson, apiConfigsPost, NewConfig.toJson,
      jsTruthy_string]
    split
    · rfl
    · cases dn <;> cases su <;> cases ex <;> try rfl
      rename_i d u e
      simp only [Option.map_some', getAllConfigsJson_toJson, any_strictEquals_toJson]
      split
      · rfl
      · simp only [templateText, ← addLogJson_toJson, ← saveConfigsJson_toJson,
          List.map_append, List.map_cons, List.map_nil]
        rfl

/-- On catalogs of strings the JSON route is `apiConfigsDelete`. -/
theorem apiConfigsDeleteJson_refines (dirName : String) (kv : KV) (now : Int) :
    apiConfigsDeleteJson dirName kv.toJson now =
      ((apiConfigsDelete dirName kv now).1, (apiConfigsDelete dirName kv now).2.toJson) := by
  simp only [apiConfigsDeleteJson, apiConfigsDelete, getAllConfigsJson_toJson,
    filter_strictEquals_toJson, List.length_map]
  split
  · rfl
  · simp only [← addLogJson_toJson, saveConfigsJson_toJson]
    rfl

theorem apiConfigsPostJson_invalid (body : JsonNewConfig) (kv : JsonKV) (now : Int)
    (h : jsTruthy body.directoryName = false ∨ jsTruthy body.sourceUrl = false ∨
      jsTruthy body.extension = false) :
    apiConfigsPostJson (some body) kv now = (badRequest "参数不完整", kv) := by
  have hc : (!jsTruthy body.directoryName || !jsTruthy body.sourceUrl ||
      !jsTruthy body.extension) = true := by
    rcases h with h | h | h <;> simp [h]
  simp only [apiConfigsPostJson, hc, if_true]

/-- C1, evaluated: on the empty catalog the add-source request whose directoryName
is the array `["news"]` is accepted, and the identical request is accepted again, because
`===` never finds the array read back from the store; the persisted catalog then
holds two records with the same directoryName. -/
theorem array_name_added_twice :
    getAllConfigsJson JsonKV.empty = [] ∧
      (apiConfigsPostJson (some arrayNewsBody) JsonKV.empty 1).1 = okResponse ∧
      (apiConfigsPostJson (some arrayNewsBody) arrayAddedOnce 2).1 = okResponse ∧
      (getAllConfigsJson arrayAddedTwice).map (fun c => c.directoryName) =
        [.compound "[\"news\"]" (some "news"), .compound "[\"news\"]" (some "news")] ∧
      ¬ ((getAllConfigsJson arrayAddedTwice).map (fun c => c.directoryName)).Nodup := by
  decide

/-- C10, evaluated: the store left by one add of the array name `["news"]` holds
a record whose directoryName equals that of the request, and the identical request
is not rejected: it is answered with success and a second record is appended to
the catalog. -/
theorem duplicate_array_name_not_rejected :
    (∃ c ∈ getAllConfigsJson arrayAddedOnce,
        some c.directoryName = arrayNewsBody.directoryName) ∧
      (apiConfigsPostJson (some arrayNewsBody) arrayAddedOnce 2).1 ≠
        badRequest "目录名已存在" ∧
      (apiConfigsPostJson (some arrayNewsBody) arrayAddedOnce 2).1 = okResponse ∧
      getAllConfigsJson (apiConfigsPostJson (some arrayNewsBody) arrayAddedOnce 2).2 =
        getAllConfigsJson arrayAddedOnce ++
          [{ directoryName := .compound "[\"news\"]" (some "news"),
             sourceUrl := .string "http://x/list.m3u", extension := .string "m3u",
             extra := [], created := 2, lastUpdated := none }] := by
  decide

end ItvManager
